import Mathlib

/-!
Verification development for the setting-inference engine of the jugg-pwa
repository (`src/lib/inference.ts`, data model in `src/lib/model.ts`).

JavaScript numbers are modelled by `JNum`: an exact real, positive or
negative infinity, or NaN.  Arithmetic on `JNum` follows the IEEE-754
special-value rules that the engine relies on (NaN propagation, `Infinity -
Infinity = NaN`, comparisons with NaN being false, ...), with finite
arithmetic taken exact.  The device catalog (`machinesById`, populated from
external JSON definitions) is modelled as a lookup function passed to
`infer`, matching the read-only map the source imports.
-/

noncomputable section

/-- Model of a JavaScript number: a finite real, `Infinity`, `-Infinity`, or `NaN`. -/
inductive JNum where
  | fin (x : ℝ)
  | pinf
  | ninf
  | nan

namespace JNum

/-- IEEE addition as used by the `+` operator on JS numbers. -/
def jAdd : JNum → JNum → JNum
  | fin a, fin b => fin (a + b)
  | fin _, pinf => pinf
  | fin _, ninf => ninf
  | pinf, fin _ => pinf
  | ninf, fin _ => ninf
  | pinf, pinf => pinf
  | ninf, ninf => ninf
  | pinf, ninf => nan
  | ninf, pinf => nan
  | nan, _ => nan
  | _, nan => nan

/-- IEEE negation. -/
def jNeg : JNum → JNum
  | fin a => fin (-a)
  | pinf => ninf
  | ninf => pinf
  | nan => nan

/-- IEEE subtraction (`a - b = a + (-b)`). -/
def jSub (a b : JNum) : JNum := jAdd a (jNeg b)

/-- IEEE multiplication as used by the `*` operator on JS numbers. -/
def jMul : JNum → JNum → JNum
  | fin a, fin b => fin (a * b)
  | fin a, pinf => if 0 < a then pinf else if a < 0 then ninf else nan
  | fin a, ninf => if 0 < a then ninf else if a < 0 then pinf else nan
  | pinf, fin b => if 0 < b then pinf else if b < 0 then ninf else nan
  | ninf, fin b => if 0 < b then ninf else if b < 0 then pinf else nan
  | pinf, pinf => pinf
  | pinf, ninf => ninf
  | ninf, pinf => ninf
  | ninf, ninf => pinf
  | nan, _ => nan
  | _, nan => nan

/-- IEEE division as used by the `/` operator on JS numbers (no signed zero:
division of a nonzero finite number by zero takes the sign of the numerator). -/
def jDiv : JNum → JNum → JNum
  | fin a, fin b =>
      if b = 0 then (if a = 0 then nan else if 0 < a then pinf else ninf)
      else fin (a / b)
  | fin _, pinf => fin 0
  | fin _, ninf => fin 0
  | pinf, fin b => if 0 ≤ b then pinf else ninf
  | ninf, fin b => if 0 ≤ b then ninf else pinf
  | pinf, pinf => nan
  | pinf, ninf => nan
  | ninf, pinf => nan
  | ninf, ninf => nan
  | nan, _ => nan
  | _, nan => nan

/-- `Math.exp`. -/
def jExp : JNum → JNum
  | fin a => fin (Real.exp a)
  | pinf => pinf
  | ninf => fin 0
  | nan => nan

/-- JS truncation toward zero on the reals (`Math.trunc` on a finite value). -/
def truncR (x : ℝ) : ℝ := if 0 ≤ x then ((⌊x⌋ : ℤ) : ℝ) else ((⌈x⌉ : ℤ) : ℝ)

/-- `Math.trunc`. -/
def jTrunc : JNum → JNum
  | fin a => fin (truncR a)
  | pinf => pinf
  | ninf => ninf
  | nan => nan

/-- `Math.sqrt` (NaN on negative arguments). -/
def jSqrt : JNum → JNum
  | fin a => if a < 0 then nan else fin (Real.sqrt a)
  | pinf => pinf
  | ninf => nan
  | nan => nan

/-- `Math.max` of two numbers (NaN if either argument is NaN). -/
def jMax : JNum → JNum → JNum
  | nan, _ => nan
  | _, nan => nan
  | fin a, fin b => fin (max a b)
  | pinf, _ => pinf
  | _, pinf => pinf
  | fin a, ninf => fin a
  | ninf, fin b => fin b
  | ninf, ninf => ninf

/-- The `<` comparison on JS numbers (false whenever NaN is involved). -/
def jLtB : JNum → JNum → Bool
  | fin a, fin b => decide (a < b)
  | fin _, pinf => true
  | ninf, fin _ => true
  | ninf, pinf => true
  | _, _ => false

/-- The `>` comparison on JS numbers. -/
def jGtB (a b : JNum) : Bool := jLtB b a

/-- The `<=` comparison on JS numbers (false whenever NaN is involved). -/
def jLeB : JNum → JNum → Bool
  | nan, _ => false
  | _, nan => false
  | fin a, fin b => decide (a ≤ b)
  | ninf, _ => true
  | _, pinf => true
  | pinf, fin _ => false
  | pinf, ninf => false
  | fin _, ninf => false

/-- The `>=` comparison on JS numbers. -/
def jGeB (a b : JNum) : Bool := jLeB b a

/-- `Number.isFinite`. -/
def jIsFinite : JNum → Bool
  | fin _ => true
  | _ => false

/-- The value of `Number.isFinite(x) ? x : 0`, as a real. -/
def jsFinOr0 : JNum → ℝ
  | fin v => v
  | _ => 0

/-- `Math.max(...)` spread over a list (the empty spread gives `-Infinity`). -/
def jMaxList (l : List JNum) : JNum := l.foldl jMax ninf

end JNum

open JNum

/-- The closed set of metric identifiers (`MetricId` in `model.ts`). -/
inductive MetricId where
  | totalBig
  | totalReg
  | singleBig
  | singleReg
  | cherryBig
  | cherryReg
  | grape
  | nonOverlapCherry
  | midCherryBig
deriving DecidableEq

/-- A device's probability table: a partial map from metric to the list of
six per-setting denominators (`MachineOdds` in `model.ts`).  Catalog data
comes from JSON, so denominators are finite reals. -/
def MachineOdds : Type := MetricId → Option (List ℝ)

/-- A catalog entry (`MachineDef` in `src/machines/types.ts`). -/
structure MachineDef where
  id : String
  name : String
  visibleMetrics : List MetricId
  odds : MachineOdds

/-- The observation bundle (`AdjustedStats` in `inference.ts`).  Required
numeric fields are arbitrary JS numbers; optional fields may be absent. -/
structure AdjustedStats where
  segGames : JNum
  bigSingle : JNum
  bigCherry : JNum
  regSingle : JNum
  regCherry : JNum
  grapes : JNum
  nonOverlapCherries : JNum
  midCherryBig : Option JNum
  totalGames : Option JNum
  totalBig : Option JNum
  totalReg : Option JNum
  diff : Option JNum

/-- The inference result (`InferenceResult` in `inference.ts`).  The
`weightsUsed` record is modelled as a partial map from metric to value. -/
structure InferenceResult where
  posterior : List JNum
  expectedSetting : JNum
  p4plus : JNum
  p56 : JNum
  weightsUsed : MetricId → Option ℝ
  grapeOddsFromDiff : Option JNum
  grapeCoinsFromDiff : Option JNum

/-- `softmaxLogWeights` from `inference.ts`: numerically stable softmax with a
uniform fallback guarded by `z <= 0`. -/
def softmaxLogWeights (logw : List JNum) : List JNum :=
  let m := jMaxList logw
  let w := logw.map (fun x => jExp (jSub x m))
  let z := w.foldl jAdd (JNum.fin 0)
  if jLeB z (JNum.fin 0) then List.replicate 6 (JNum.fin (1 / 6))
  else w.map (fun x => jDiv x z)

/-- `safeProbFromDenom` from `inference.ts`; the argument is `none` when the
array access was out of bounds (`undefined`).  Finiteness tests on a real
denominator are identically true and drop out. -/
def safeProbFromDenom : Option ℝ → ℝ
  | none => 1e-12
  | some denom =>
      if ¬ (0 < denom) then 1e-12
      else if 1 / denom ≤ 0 then 1e-12
      else min (1 - 1e-12) (max 1e-12 (1 / denom))

/-- `clampCount` from `inference.ts`: truncate the observed count (0 when not
finite) and clamp it into `[0, n]`. -/
def clampCount (k : JNum) (n : ℝ) : ℝ :=
  let kk := truncR (jsFinOr0 k)
  if kk < 0 then 0 else if kk > n then n else kk

/-- `binomLogLik` from `inference.ts`: binomial log-likelihood without the
combinatorial term; the probability is clamped into `[1e-12, 1-1e-12]`. -/
def binomLogLik (n k : JNum) (p : ℝ) : ℝ :=
  let nn := max 0 (truncR (jsFinOr0 n))
  let kk := clampCount k nn
  let pp := min (1 - 1e-12) (max 1e-12 p)
  kk * Real.log pp + (nn - kk) * Real.log (1 - pp)

/-- `deltaScore` from `inference.ts`: `log(D1/D6)`, or 0 on invalid
denominators. -/
def deltaScore (denoms : List ℝ) : ℝ :=
  match denoms.get? 0, denoms.get? 5 with
  | some d1, some d6 =>
      if ¬ (0 < d1) ∨ ¬ (0 < d6) then 0
      else if d1 / d6 ≤ 0 then 0
      else Real.log (d1 / d6)
  | _, _ => 0

/-- `avgProb` from `inference.ts`: mean of the six per-setting probabilities,
clamped. -/
def avgProb (denoms : List ℝ) : ℝ :=
  min (1 - 1e-12) (max 1e-12
    (((denoms.map (fun d => safeProbFromDenom (some d))).foldl (· + ·) 0) / denoms.length))

/-- The metric iteration order of the `metrics` array in `buildWeights`. -/
def metricsList : List MetricId :=
  [MetricId.singleReg, MetricId.cherryReg, MetricId.singleBig, MetricId.cherryBig,
   MetricId.grape, MetricId.nonOverlapCherry, MetricId.midCherryBig,
   MetricId.totalBig, MetricId.totalReg]

/-- The sample-efficiency score `e = sqrt(G * p_avg)` of `buildWeights`. -/
def effScore (G : JNum) (den : List ℝ) : JNum :=
  jSqrt (jMul G (JNum.fin (avgProb den)))

/-- The running maximum `eMax` of `buildWeights`: starts at `1e-9` and is
replaced whenever a present six-entry metric has a strictly larger `e`. -/
def effMax (odds : MachineOdds) (G : JNum) : JNum :=
  metricsList.foldl
    (fun acc m =>
      match odds m with
      | some den =>
          if den.length = 6 then
            (if jGtB (effScore G den) acc then effScore G den else acc)
          else acc
      | none => acc)
    (JNum.fin 1e-9)

/-- The efficiency factor `0.6 + 0.4 * (e / eMax)` of `buildWeights`. -/
def effFactor (odds : MachineOdds) (G : JNum) (den : List ℝ) : JNum :=
  jAdd (JNum.fin 0.6) (jMul (JNum.fin 0.4) (jDiv (effScore G den) (effMax odds G)))

/-- The base weight `w = d * factor` of `buildWeights`. -/
def rawWeight (odds : MachineOdds) (G : JNum) (den : List ℝ) : JNum :=
  jMul (JNum.fin (deltaScore den)) (effFactor odds G den)

/-- The redundancy dampening of `buildWeights`: the two cumulative-total
metrics are multiplied by 0.40. -/
def dampWeight (odds : MachineOdds) (G : JNum) (m : MetricId) (den : List ℝ) : JNum :=
  if m = MetricId.totalBig ∨ m = MetricId.totalReg then
    jMul (rawWeight odds G den) (JNum.fin 0.40)
  else rawWeight odds G den

/-- The per-metric minimum weight of `buildWeights`. -/
def weightMin (m : MetricId) : ℝ := if m = MetricId.grape then 0.60 else 0.05

/-- The final clamped weight of `buildWeights`: non-finite values become 0,
then the result is clamped into `[wMin, 3.0]`. -/
def finWeight (odds : MachineOdds) (G : JNum) (m : MetricId) (den : List ℝ) : ℝ :=
  max (weightMin m) (min 3.0 (jsFinOr0 (dampWeight odds G m den)))

/-- `buildWeights` from `inference.ts`: the weight map, defined exactly for
the metrics present in the table with six denominators. -/
def buildWeights (_machine : String) (odds : MachineOdds) (segGames : JNum) :
    MetricId → Option ℝ :=
  fun m =>
    match odds m with
    | some den =>
        if den.length = 6 then
          some (finWeight odds (jMax (JNum.fin 0) segGames) m den)
        else none
    | none => none

/-- The coercion `Math.max(0, Math.trunc(x))` applied by `infer` to every
count-like input. -/
def coerceCount (x : JNum) : JNum := jMax (JNum.fin 0) (jTrunc x)

/-- The value of an optional field defaulted with `?? 0`. -/
def jOfOpt0 (o : Option JNum) : JNum := o.getD (JNum.fin 0)

/-- A weight looked up from the weight record inside the aggregation loop:
an absent key (`undefined`) behaves as NaN in arithmetic. -/
def jOfOptW : Option ℝ → JNum
  | some w => JNum.fin w
  | none => JNum.nan

/-- One `ll += weights[m] * binomLogLik(...)` line of the aggregation loop,
executed when the metric is present in the table. -/
def segTerm (odds : MachineOdds) (W : MetricId → Option ℝ) (m : MetricId)
    (n k : JNum) (i : ℕ) (acc : JNum) : JNum :=
  match odds m with
  | none => acc
  | some den =>
      jAdd acc (jMul (jOfOptW (W m)) (JNum.fin (binomLogLik n k (safeProbFromDenom (den.get? i)))))

/-- One cumulative-total line of the aggregation loop, guarded additionally
by `k >= 0`. -/
def totalTerm (odds : MachineOdds) (W : MetricId → Option ℝ) (m : MetricId)
    (n k : JNum) (i : ℕ) (acc : JNum) : JNum :=
  match odds m with
  | none => acc
  | some den =>
      if jGeB k (JNum.fin 0) then
        jAdd acc (jMul (jOfOptW (W m)) (JNum.fin (binomLogLik n k (safeProbFromDenom (den.get? i)))))
      else acc

/-- The aggregated score `ll` of `infer` for one candidate setting `i`
(0-based), following the exact order of the `+=` lines in the source. -/
def aggScore (odds : MachineOdds) (W : MetricId → Option ℝ)
    (segGames totalGames kSingleB kCherryB kSingleR kCherryR kGrape
     kNonOvCherry kMidCherryBig kTotalB kTotalR : JNum) (i : ℕ) : JNum :=
  let l1 := segTerm odds W MetricId.singleReg segGames kSingleR i (JNum.fin 0)
  let l2 := segTerm odds W MetricId.cherryReg segGames kCherryR i l1
  let l3 := segTerm odds W MetricId.singleBig segGames kSingleB i l2
  let l4 := segTerm odds W MetricId.cherryBig segGames kCherryB i l3
  let l5 := segTerm odds W MetricId.grape segGames kGrape i l4
  let l6 := segTerm odds W MetricId.nonOverlapCherry segGames kNonOvCherry i l5
  let l7 := segTerm odds W MetricId.midCherryBig segGames kMidCherryBig i l6
  if jGtB totalGames (JNum.fin 0) then
    totalTerm odds W MetricId.totalReg totalGames kTotalR i
      (totalTerm odds W MetricId.totalBig totalGames kTotalB i l7)
  else l7

/-- The `post.reduce((acc, p, idx) => acc + (idx + 1) * p, 0)` accumulator. -/
def expSettingAux : List JNum → ℕ → JNum → JNum
  | [], _, acc => acc
  | p :: rest, idx, acc =>
      expSettingAux rest (idx + 1) (jAdd acc (jMul (JNum.fin ((idx + 1 : ℕ) : ℝ)) p))

/-- The expected-setting reduction of `infer`. -/
def expSetting (post : List JNum) : JNum := expSettingAux post 0 (JNum.fin 0)

/-- Array indexing `post[i]` inside `infer`; an out-of-bounds access yields
`undefined`, which behaves as NaN in the additions that consume it. -/
def jAt (post : List JNum) (i : ℕ) : JNum := (post.get? i).getD JNum.nan

/-- `grapeFromDiff` from `inference.ts`: the closed-form reverse estimator. -/
def grapeFromDiff (games big reg : JNum) (diff : Option JNum) :
    Option JNum × Option JNum :=
  match diff with
  | none => (none, none)
  | some D =>
      if ¬ jGtB games (JNum.fin 0) then (none, none)
      else
        let grapeCoins :=
          jSub (jAdd D (jMul games (JNum.fin 3)))
            (jAdd (jAdd (jMul big (JNum.fin 239.25)) (jMul reg (JNum.fin 95.25)))
              (jMul games (JNum.fin (3 * (1 / 7.3) + 2 * (1 / 35)))))
        if ¬ jIsFinite grapeCoins ∨ jLeB grapeCoins (JNum.fin 0) then
          (none, if jIsFinite grapeCoins then some grapeCoins else none)
        else
          let odds := jDiv (jMul (JNum.fin 8) games) grapeCoins
          if ¬ jIsFinite odds ∨ jLeB odds (JNum.fin 0) then (none, some grapeCoins)
          else (some odds, some grapeCoins)

/-- `Number(v.toFixed(3))`: rounding to three decimal places (ties toward the
larger value, per the `toFixed` specification). -/
def round3 (x : ℝ) : ℝ := ((round (x * 1000) : ℤ) : ℝ) / 1000

/-- `infer` from `inference.ts`.  The catalog `machinesById` is the read-only
lookup imported from `src/machines`; an unknown identifier throws, modelled
by `Except.error`. -/
def infer (machinesById : String → Option MachineDef) (machine : String)
    (stats : AdjustedStats) : Except String InferenceResult :=
  match machinesById machine with
  | none => Except.error ("Unknown machine id: " ++ machine)
  | some dm =>
      let odds := dm.odds
      let segGames := coerceCount stats.segGames
      let totalGames := coerceCount (jOfOpt0 stats.totalGames)
      let kSingleB := coerceCount stats.bigSingle
      let kCherryB := coerceCount stats.bigCherry
      let kSingleR := coerceCount stats.regSingle
      let kCherryR := coerceCount stats.regCherry
      let kGrape := coerceCount stats.grapes
      let kNonOvCherry := coerceCount stats.nonOverlapCherries
      let kMidCherryBig := coerceCount (jOfOpt0 stats.midCherryBig)
      let kTotalB := coerceCount (jOfOpt0 stats.totalBig)
      let kTotalR := coerceCount (jOfOpt0 stats.totalReg)
      let weights := buildWeights machine odds segGames
      let logw := List.ofFn (fun i : Fin 6 =>
        aggScore odds weights segGames totalGames kSingleB kCherryB kSingleR
          kCherryR kGrape kNonOvCherry kMidCherryBig kTotalB kTotalR (i : ℕ))
      let post := softmaxLogWeights logw
      let gfd := grapeFromDiff segGames (jAdd kSingleB kCherryB)
        (jAdd kSingleR kCherryR) stats.diff
      Except.ok
        { posterior := post
          expectedSetting := expSetting post
          p4plus := jAdd (jAdd (jAt post 3) (jAt post 4)) (jAt post 5)
          p56 := jAdd (jAt post 4) (jAt post 5)
          weightsUsed := fun m => (weights m).map round3
          grapeOddsFromDiff := gfd.1
          grapeCoinsFromDiff := gfd.2 }

/-- The guard under which a metric's weighted log-likelihood term is actually
added into the aggregated scores by `infer` (the `if (odds.X)` presence
checks, and for the cumulative metrics also `totalGames > 0 && k >= 0`). -/
def usedInAggregation (odds : MachineOdds) (stats : AdjustedStats) (m : MetricId) : Bool :=
  match m with
  | MetricId.totalBig =>
      (odds m).isSome && jGtB (coerceCount (jOfOpt0 stats.totalGames)) (JNum.fin 0)
        && jGeB (coerceCount (jOfOpt0 stats.totalBig)) (JNum.fin 0)
  | MetricId.totalReg =>
      (odds m).isSome && jGtB (coerceCount (jOfOpt0 stats.totalGames)) (JNum.fin 0)
        && jGeB (coerceCount (jOfOpt0 stats.totalReg)) (JNum.fin 0)
  | _ => (odds m).isSome

/-- Derived quantity: the maximum of six reals, in the association order
produced by folding `Math.max` over a six-element array. -/
def max6 (a b c d e f : ℝ) : ℝ := max (max (max (max (max a b) c) d) e) f

/-- Derived quantity: the softmax denominator for six finite scores, in the
association order produced by the `reduce` in `softmaxLogWeights`. -/
def sumExp6 (a b c d e f : ℝ) : ℝ :=
  0 + Real.exp (a - max6 a b c d e f) + Real.exp (b - max6 a b c d e f)
    + Real.exp (c - max6 a b c d e f) + Real.exp (d - max6 a b c d e f)
    + Real.exp (e - max6 a b c d e f) + Real.exp (f - max6 a b c d e f)

/-- Derived quantity: one posterior entry of the softmax of six finite
scores. -/
def smEntry (a b c d e f x : ℝ) : ℝ :=
  Real.exp (x - max6 a b c d e f) / sumExp6 a b c d e f

/-- Real-valued mirror of `segTerm`'s added value, meaningful when every
present metric has a weight (the situation established by a valid catalog
entry). -/
def segTermValR (odds : MachineOdds) (W : MetricId → Option ℝ) (m : MetricId)
    (n k : JNum) (i : ℕ) : ℝ :=
  match odds m with
  | none => 0
  | some den => (W m).getD 0 * binomLogLik n k (safeProbFromDenom (den.get? i))

/-- Real-valued mirror of `totalTerm`'s added value. -/
def totalTermValR (odds : MachineOdds) (W : MetricId → Option ℝ) (m : MetricId)
    (n k : JNum) (i : ℕ) : ℝ :=
  match odds m with
  | none => 0
  | some den =>
      if jGeB k (JNum.fin 0) then
        (W m).getD 0 * binomLogLik n k (safeProbFromDenom (den.get? i))
      else 0

/-- Real-valued mirror of `aggScore`, used to reason about score
differences. -/
def aggScoreR (odds : MachineOdds) (W : MetricId → Option ℝ)
    (segGames totalGames kSingleB kCherryB kSingleR kCherryR kGrape
     kNonOvCherry kMidCherryBig kTotalB kTotalR : JNum) (i : ℕ) : ℝ :=
  segTermValR odds W MetricId.singleReg segGames kSingleR i
    + segTermValR odds W MetricId.cherryReg segGames kCherryR i
    + segTermValR odds W MetricId.singleBig segGames kSingleB i
    + segTermValR odds W MetricId.cherryBig segGames kCherryB i
    + segTermValR odds W MetricId.grape segGames kGrape i
    + segTermValR odds W MetricId.nonOverlapCherry segGames kNonOvCherry i
    + segTermValR odds W MetricId.midCherryBig segGames kMidCherryBig i
    + (if jGtB totalGames (JNum.fin 0) then
        totalTermValR odds W MetricId.totalBig totalGames kTotalB i
          + totalTermValR odds W MetricId.totalReg totalGames kTotalR i
      else 0)

/-- Replacement of a finite negative number by 0 (other values untouched). -/
def negCoerced : JNum → JNum
  | JNum.fin v => JNum.fin (if v < 0 then 0 else v)
  | x => x

/-- The bundle with every count-like field's finite negative value replaced
by 0 (the net differential is not a count and is untouched). -/
def negSanitized (s : AdjustedStats) : AdjustedStats :=
  { s with
    segGames := negCoerced s.segGames
    bigSingle := negCoerced s.bigSingle
    bigCherry := negCoerced s.bigCherry
    regSingle := negCoerced s.regSingle
    regCherry := negCoerced s.regCherry
    grapes := negCoerced s.grapes
    nonOverlapCherries := negCoerced s.nonOverlapCherries
    midCherryBig := s.midCherryBig.map negCoerced
    totalGames := s.totalGames.map negCoerced
    totalBig := s.totalBig.map negCoerced
    totalReg := s.totalReg.map negCoerced }

/-- Replacement of a non-finite number by 0 (finite values untouched). -/
def nfZeroed : JNum → JNum
  | JNum.fin v => JNum.fin v
  | _ => JNum.fin 0

/-- The bundle with non-finite values in the seven segment metric counts
replaced by 0. -/
def nfSanitizedCounts (s : AdjustedStats) : AdjustedStats :=
  { s with
    bigSingle := nfZeroed s.bigSingle
    bigCherry := nfZeroed s.bigCherry
    regSingle := nfZeroed s.regSingle
    regCherry := nfZeroed s.regCherry
    grapes := nfZeroed s.grapes
    nonOverlapCherries := nfZeroed s.nonOverlapCherries
    midCherryBig := s.midCherryBig.map nfZeroed }

/-- The bundle with the observed count of one metric replaced by a given
value (for the cumulative metrics, the cumulative count). -/
def setMetricCount (s : AdjustedStats) (m : MetricId) (v : JNum) : AdjustedStats :=
  match m with
  | MetricId.singleBig => { s with bigSingle := v }
  | MetricId.cherryBig => { s with bigCherry := v }
  | MetricId.singleReg => { s with regSingle := v }
  | MetricId.cherryReg => { s with regCherry := v }
  | MetricId.grape => { s with grapes := v }
  | MetricId.nonOverlapCherry => { s with nonOverlapCherries := v }
  | MetricId.midCherryBig => { s with midCherryBig := some v }
  | MetricId.totalBig => { s with totalBig := some v }
  | MetricId.totalReg => { s with totalReg := some v }

/-- The trial count `infer` pairs with a metric's observed count: the coerced
cumulative game count for the two cumulative metrics, the coerced segment
game count otherwise. -/
def trialOf (s : AdjustedStats) (m : MetricId) : JNum :=
  if m = MetricId.totalBig ∨ m = MetricId.totalReg then
    coerceCount (jOfOpt0 s.totalGames)
  else coerceCount s.segGames

/-- Test fixture: a catalog entry with a single metric (grape, six equal
denominators). -/
def oddsG6 : MachineOdds := fun m =>
  if m = MetricId.grape then some [6, 6, 6, 6, 6, 6] else none

/-- Test fixture: a device definition over `oddsG6`. -/
def mdefG6 : MachineDef :=
  { id := "X", name := "fixture", visibleMetrics := [MetricId.grape], odds := oddsG6 }

/-- Test fixture: a catalog containing only the device `"X"`. -/
def catG6 : String → Option MachineDef := fun s =>
  if s = "X" then some mdefG6 else none

/-- Test fixture: a catalog entry with a two-to-one single-REG table and a
flat cumulative-BIG table. -/
def oddsC9 : MachineOdds := fun m =>
  match m with
  | MetricId.singleReg => some [2, 2, 2, 2, 2, 1]
  | MetricId.totalBig => some [2, 2, 2, 2, 2, 2]
  | _ => none

/-- Test fixture: a device definition over `oddsC9`. -/
def mdefC9 : MachineDef :=
  { id := "Y", name := "fixture", visibleMetrics := [], odds := oddsC9 }

/-- Test fixture: a catalog containing only the device `"Y"`. -/
def catC9 : String → Option MachineDef := fun s =>
  if s = "Y" then some mdefC9 else none

/-- Test fixture: a catalog entry whose single metric has strictly
decreasing denominators that are all so large that every per-setting
probability is clamped up to `1e-12`. -/
def oddsC7 : MachineOdds := fun m =>
  if m = MetricId.grape then
    some [1e13 + 5, 1e13 + 4, 1e13 + 3, 1e13 + 2, 1e13 + 1, 1e13]
  else none

/-- Test fixture: a device definition over `oddsC7`. -/
def mdefC7 : MachineDef :=
  { id := "Z", name := "fixture", visibleMetrics := [], odds := oddsC7 }

/-- Test fixture: a catalog containing only the device `"Z"`. -/
def catC7 : String → Option MachineDef := fun s =>
  if s = "Z" then some mdefC7 else none

/-- Test fixture: the all-zero observation bundle. -/
def statsZero : AdjustedStats :=
  { segGames := JNum.fin 0
    bigSingle := JNum.fin 0
    bigCherry := JNum.fin 0
    regSingle := JNum.fin 0
    regCherry := JNum.fin 0
    grapes := JNum.fin 0
    nonOverlapCherries := JNum.fin 0
    midCherryBig := none
    totalGames := none
    totalBig := none
    totalReg := none
    diff := none }

/-- Test fixture: 100 segment games, a NaN tier-A single count, and a net
differential of 500. -/
def statsC2 : AdjustedStats :=
  { statsZero with
    segGames := JNum.fin 100
    bigSingle := JNum.nan
    diff := some (JNum.fin 500) }

/-- Test fixture: ten segment games, all other counts zero or absent, with
the grape count left as a parameter. -/
def statsC7 (kg : JNum) : AdjustedStats :=
  { statsZero with
    segGames := JNum.fin 10
    grapes := kg }

/-- Test fixture: an odds table with one metric whose denominators strictly
decrease through the ordinary (unclamped) range. -/
def oddsW : MachineOdds := fun m =>
  if m = MetricId.grape then some [7, 6, 5, 4, 3, 2] else none

/-- Test fixture: a device definition over `oddsW`. -/
def mdefW : MachineDef :=
  { id := "W", name := "fixture", visibleMetrics := [], odds := oddsW }

/-- Test fixture: a catalog containing only the device `"W"`. -/
def catW : String → Option MachineDef := fun s =>
  if s = "W" then some mdefW else none

/-- Test fixture: five segment games (written as a cast numeral), all other
counts zero or absent. -/
def statsW : AdjustedStats :=
  { statsZero with segGames := JNum.fin ((5 : ℕ) : ℝ) }

/-! Basic computation lemmas for the JS-number model. -/

@[simp] lemma jAdd_fin_fin (a b : ℝ) : jAdd (JNum.fin a) (JNum.fin b) = JNum.fin (a + b) := rfl

@[simp] lemma jSub_fin_fin (a b : ℝ) : jSub (JNum.fin a) (JNum.fin b) = JNum.fin (a - b) := by
  show JNum.fin (a + -b) = JNum.fin (a - b)
  rw [← sub_eq_add_neg]

@[simp] lemma jMul_fin_fin (a b : ℝ) : jMul (JNum.fin a) (JNum.fin b) = JNum.fin (a * b) := rfl

lemma jDiv_fin_fin (a b : ℝ) (h : b ≠ 0) :
    jDiv (JNum.fin a) (JNum.fin b) = JNum.fin (a / b) := by
  simp [jDiv, h]

@[simp] lemma jExp_fin (a : ℝ) : jExp (JNum.fin a) = JNum.fin (Real.exp a) := rfl

@[simp] lemma jMax_fin_fin (a b : ℝ) : jMax (JNum.fin a) (JNum.fin b) = JNum.fin (max a b) := rfl

@[simp] lemma jMax_ninf_fin (b : ℝ) : jMax JNum.ninf (JNum.fin b) = JNum.fin b := rfl

@[simp] lemma jLeB_fin_fin (a b : ℝ) : jLeB (JNum.fin a) (JNum.fin b) = decide (a ≤ b) := rfl

@[simp] lemma jLtB_fin_fin (a b : ℝ) : jLtB (JNum.fin a) (JNum.fin b) = decide (a < b) := rfl

@[simp] lemma jGtB_fin_fin (a b : ℝ) : jGtB (JNum.fin a) (JNum.fin b) = decide (b < a) := rfl

@[simp] lemma jGeB_fin_fin (a b : ℝ) : jGeB (JNum.fin a) (JNum.fin b) = decide (b ≤ a) := rfl

@[simp] lemma jIsFinite_fin (a : ℝ) : jIsFinite (JNum.fin a) = true := rfl

@[simp] lemma jsFinOr0_fin (a : ℝ) : jsFinOr0 (JNum.fin a) = a := rfl

@[simp] lemma jOfOpt0_none : jOfOpt0 none = JNum.fin 0 := rfl

@[simp] lemma jOfOpt0_some (x : JNum) : jOfOpt0 (some x) = x := rfl

@[simp] lemma jOfOptW_some (w : ℝ) : jOfOptW (some w) = JNum.fin w := rfl

lemma truncR_intCast (n : ℤ) : truncR ((n : ℤ) : ℝ) = n := by
  unfold truncR
  split <;> simp

lemma truncR_natCast (n : ℕ) : truncR ((n : ℕ) : ℝ) = n := by
  have h := truncR_intCast (n : ℤ)
  simpa using h

@[simp] lemma truncR_zero : truncR 0 = 0 := by
  simpa using truncR_natCast 0

lemma truncR_nonpos {x : ℝ} (h : x ≤ 0) : truncR x ≤ 0 := by
  unfold truncR
  split
  · next h0 =>
      have hx : x = 0 := le_antisymm h h0
      simp [hx]
  · next h0 =>
      have : (⌈x⌉ : ℤ) ≤ (0 : ℤ) := Int.ceil_le.mpr (by exact_mod_cast h)
      exact_mod_cast this

lemma truncR_nonneg {x : ℝ} (h : 0 ≤ x) : 0 ≤ truncR x := by
  unfold truncR
  rw [if_pos h]
  exact_mod_cast Int.floor_nonneg.mpr h

@[simp] lemma coerceCount_fin (v : ℝ) :
    coerceCount (JNum.fin v) = JNum.fin (max 0 (truncR v)) := rfl

@[simp] lemma coerceCount_nan : coerceCount JNum.nan = JNum.nan := rfl

@[simp] lemma coerceCount_pinf : coerceCount JNum.pinf = JNum.pinf := rfl

@[simp] lemma coerceCount_ninf : coerceCount JNum.ninf = JNum.fin 0 := rfl

lemma coerceCount_natCast (n : ℕ) : coerceCount (JNum.fin (n : ℝ)) = JNum.fin (n : ℝ) := by
  rw [coerceCount_fin, truncR_natCast, max_eq_right (by positivity)]

/-! Facts about `safeProbFromDenom` and `binomLogLik`. -/

lemma safeProb_ge (o : Option ℝ) : 1e-12 ≤ safeProbFromDenom o := by
  rcases o with _ | d
  · norm_num [safeProbFromDenom]
  · rw [safeProbFromDenom]
    split
    · norm_num
    · split
      · norm_num
      · refine le_min (by norm_num) (le_max_left _ _)

lemma safeProb_le (o : Option ℝ) : safeProbFromDenom o ≤ 1 - 1e-12 := by
  rcases o with _ | d
  · norm_num [safeProbFromDenom]
  · rw [safeProbFromDenom]
    split
    · norm_num
    · split
      · norm_num
      · exact min_le_left _ _

lemma safeProb_pos (o : Option ℝ) : 0 < safeProbFromDenom o :=
  lt_of_lt_of_le (by norm_num) (safeProb_ge o)

lemma safeProb_lt_one (o : Option ℝ) : safeProbFromDenom o < 1 :=
  lt_of_le_of_lt (safeProb_le o) (by norm_num)

lemma ppClamp_eq {p : ℝ} (h1 : 1e-12 ≤ p) (h2 : p ≤ 1 - 1e-12) :
    min (1 - 1e-12) (max 1e-12 p) = p := by
  rw [max_eq_right h1, min_eq_right h2]

lemma binomLogLik_games_nonpos {n : JNum} (h : jsFinOr0 n ≤ 0) (k : JNum) (p : ℝ) :
    binomLogLik n k p = 0 := by
  have hn : max 0 (truncR (jsFinOr0 n)) = 0 := max_eq_left (truncR_nonpos h)
  simp only [binomLogLik, clampCount, hn]
  split
  · ring
  · split
    · ring
    · next h1 h2 =>
        have h3 : truncR (jsFinOr0 k) = 0 := le_antisymm (not_lt.mp h2) (not_lt.mp h1)
        rw [h3]
        ring

lemma binomLogLik_nat (g k : ℕ) (hk : k ≤ g) (p : ℝ) :
    binomLogLik (JNum.fin (g : ℝ)) (JNum.fin (k : ℝ)) p =
      (k : ℝ) * Real.log (min (1 - 1e-12) (max 1e-12 p))
        + ((g : ℝ) - (k : ℝ)) * Real.log (1 - min (1 - 1e-12) (max 1e-12 p)) := by
  have hg : (0 : ℝ) ≤ (g : ℝ) := by positivity
  have hk0 : ¬ ((k : ℝ) < 0) := not_lt.mpr (by positivity)
  have hkg : ¬ ((k : ℝ) > (g : ℝ)) := not_lt.mpr (by exact_mod_cast hk)
  simp only [binomLogLik, clampCount, jsFinOr0_fin, truncR_natCast,
    max_eq_right hg, if_neg hk0, if_neg hkg]

lemma binomLogLik_coerce_nf (n : JNum) (x : JNum) (p : ℝ) :
    binomLogLik n (coerceCount (nfZeroed x)) p = binomLogLik n (coerceCount x) p := by
  cases x <;> simp [nfZeroed, binomLogLik, clampCount, coerceCount, jMax, jTrunc, jsFinOr0]

lemma coerceCount_negCoerced (x : JNum) : coerceCount (negCoerced x) = coerceCount x := by
  cases x with
  | fin v =>
      simp only [negCoerced, coerceCount_fin]
      split
      · next hv =>
          have : truncR v ≤ 0 := truncR_nonpos (le_of_lt hv)
          rw [truncR_zero, max_eq_left le_rfl, max_eq_left this]
      · rfl
  | pinf => rfl
  | ninf => rfl
  | nan => rfl

/-! Closed form of the softmax on six finite scores. -/

lemma jMaxList_fin6 (a b c d e f : ℝ) :
    jMaxList [JNum.fin a, JNum.fin b, JNum.fin c, JNum.fin d, JNum.fin e, JNum.fin f]
      = JNum.fin (max6 a b c d e f) := by
  simp [jMaxList, max6, List.foldl]

lemma sumExp6_unfold (a b c d e f : ℝ) :
    sumExp6 a b c d e f
      = 0 + Real.exp (a - max6 a b c d e f) + Real.exp (b - max6 a b c d e f)
        + Real.exp (c - max6 a b c d e f) + Real.exp (d - max6 a b c d e f)
        + Real.exp (e - max6 a b c d e f) + Real.exp (f - max6 a b c d e f) := rfl

lemma sumExp6_pos (a b c d e f : ℝ) : 0 < sumExp6 a b c d e f := by
  rw [sumExp6_unfold]
  positivity

lemma softmax_fin6 (a b c d e f : ℝ) :
    softmaxLogWeights [JNum.fin a, JNum.fin b, JNum.fin c, JNum.fin d, JNum.fin e, JNum.fin f]
      = [JNum.fin (smEntry a b c d e f a), JNum.fin (smEntry a b c d e f b),
         JNum.fin (smEntry a b c d e f c), JNum.fin (smEntry a b c d e f d),
         JNum.fin (smEntry a b c d e f e), JNum.fin (smEntry a b c d e f f)] := by
  have hS := sumExp6_pos a b c d e f
  simp only [softmaxLogWeights, jMaxList_fin6, List.map_cons, List.map_nil,
    jSub_fin_fin, jExp_fin, List.foldl_cons, List.foldl_nil, jAdd_fin_fin]
  rw [← sumExp6_unfold]
  rw [jLeB_fin_fin, if_neg (by simp only [decide_eq_true_eq]; exact not_le.mpr hS)]
  simp only [smEntry]
  rw [jDiv_fin_fin _ _ (ne_of_gt hS), jDiv_fin_fin _ _ (ne_of_gt hS),
    jDiv_fin_fin _ _ (ne_of_gt hS), jDiv_fin_fin _ _ (ne_of_gt hS),
    jDiv_fin_fin _ _ (ne_of_gt hS), jDiv_fin_fin _ _ (ne_of_gt hS)]

lemma smEntry_pos (a b c d e f x : ℝ) : 0 < smEntry a b c d e f x :=
  div_pos (Real.exp_pos _) (sumExp6_pos a b c d e f)

lemma smEntry_le_one (a b c d e f x : ℝ)
    (hx : x = a ∨ x = b ∨ x = c ∨ x = d ∨ x = e ∨ x = f) :
    smEntry a b c d e f x ≤ 1 := by
  have hS := sumExp6_pos a b c d e f
  unfold smEntry
  rw [div_le_one hS, sumExp6_unfold]
  have e1 := Real.exp_pos (a - max6 a b c d e f)
  have e2 := Real.exp_pos (b - max6 a b c d e f)
  have e3 := Real.exp_pos (c - max6 a b c d e f)
  have e4 := Real.exp_pos (d - max6 a b c d e f)
  have e5 := Real.exp_pos (e - max6 a b c d e f)
  have e6 := Real.exp_pos (f - max6 a b c d e f)
  rcases hx with rfl | rfl | rfl | rfl | rfl | rfl <;> linarith

lemma smEntry_sum (a b c d e f : ℝ) :
    smEntry a b c d e f a + smEntry a b c d e f b + smEntry a b c d e f c
      + smEntry a b c d e f d + smEntry a b c d e f e + smEntry a b c d e f f = 1 := by
  have hS := (sumExp6_pos a b c d e f).ne'
  unfold smEntry
  rw [div_add_div_same, div_add_div_same, div_add_div_same, div_add_div_same,
    div_add_div_same, div_eq_one_iff_eq hS, sumExp6_unfold]
  ring

/-! Weight-map and aggregation lemmas. -/

lemma buildWeights_some (mach : String) (odds : MachineOdds) (segG : JNum)
    {m : MetricId} {den : List ℝ} (h : odds m = some den) (hlen : den.length = 6) :
    buildWeights mach odds segG m
      = some (finWeight odds (jMax (JNum.fin 0) segG) m den) := by
  simp [buildWeights, h, hlen]

lemma buildWeights_none (mach : String) (odds : MachineOdds) (segG : JNum)
    {m : MetricId} (h : odds m = none) : buildWeights mach odds segG m = none := by
  simp [buildWeights, h]

lemma weightMin_pos (m : MetricId) : 0 < weightMin m := by
  unfold weightMin
  split <;> norm_num

lemma weightMin_le_three (m : MetricId) : weightMin m ≤ 3.0 := by
  unfold weightMin
  split <;> norm_num

lemma finWeight_ge (odds : MachineOdds) (G : JNum) (m : MetricId) (den : List ℝ) :
    weightMin m ≤ finWeight odds G m den := le_max_left _ _

lemma finWeight_le (odds : MachineOdds) (G : JNum) (m : MetricId) (den : List ℝ) :
    finWeight odds G m den ≤ 3.0 :=
  max_le (weightMin_le_three m) (min_le_left _ _)

lemma finWeight_pos (odds : MachineOdds) (G : JNum) (m : MetricId) (den : List ℝ) :
    0 < finWeight odds G m den :=
  lt_of_lt_of_le (weightMin_pos m) (finWeight_ge odds G m den)

lemma segTerm_games_nonpos (odds : MachineOdds) (W : MetricId → Option ℝ)
    (m : MetricId) (n k : JNum) (i : ℕ) (x : ℝ)
    (hWm : ∀ den, odds m = some den → (W m).isSome)
    (hn : jsFinOr0 n ≤ 0) :
    segTerm odds W m n k i (JNum.fin x) = JNum.fin x := by
  unfold segTerm
  cases h : odds m with
  | none => rfl
  | some den =>
      obtain ⟨w, hw⟩ := Option.isSome_iff_exists.mp (hWm den h)
      simp [hw, binomLogLik_games_nonpos hn]

lemma aggScore_games_nonpos (odds : MachineOdds) (W : MetricId → Option ℝ)
    (segG totalG k1 k2 k3 k4 k5 k6 k7 k8 k9 : JNum) (i : ℕ)
    (hW : ∀ m den, odds m = some den → (W m).isSome)
    (hseg : jsFinOr0 segG ≤ 0)
    (hguard : jGtB totalG (JNum.fin 0) = false) :
    aggScore odds W segG totalG k1 k2 k3 k4 k5 k6 k7 k8 k9 i = JNum.fin 0 := by
  unfold aggScore
  rw [if_neg (by rw [hguard]; exact Bool.false_ne_true)]
  rw [segTerm_games_nonpos odds W MetricId.singleReg segG k3 i 0 (fun den h => hW _ den h) hseg,
    segTerm_games_nonpos odds W MetricId.cherryReg segG k4 i 0 (fun den h => hW _ den h) hseg,
    segTerm_games_nonpos odds W MetricId.singleBig segG k1 i 0 (fun den h => hW _ den h) hseg,
    segTerm_games_nonpos odds W MetricId.cherryBig segG k2 i 0 (fun den h => hW _ den h) hseg,
    segTerm_games_nonpos odds W MetricId.grape segG k5 i 0 (fun den h => hW _ den h) hseg,
    segTerm_games_nonpos odds W MetricId.nonOverlapCherry segG k6 i 0 (fun den h => hW _ den h) hseg,
    segTerm_games_nonpos odds W MetricId.midCherryBig segG k7 i 0 (fun den h => hW _ den h) hseg]

lemma smEntry_zero6 : smEntry 0 0 0 0 0 0 0 = 1 / 6 := by
  unfold smEntry sumExp6 max6
  norm_num

lemma softmax_zero6 :
    softmaxLogWeights [JNum.fin 0, JNum.fin 0, JNum.fin 0, JNum.fin 0, JNum.fin 0, JNum.fin 0]
      = List.replicate 6 (JNum.fin (1 / 6)) := by
  rw [softmax_fin6, smEntry_zero6]
  rfl

lemma expSetting_uniform :
    expSetting (List.replicate 6 (JNum.fin (1 / 6))) = JNum.fin 3.5 := by
  show expSetting [JNum.fin (1/6), JNum.fin (1/6), JNum.fin (1/6), JNum.fin (1/6),
    JNum.fin (1/6), JNum.fin (1/6)] = JNum.fin 3.5
  unfold expSetting
  simp only [expSettingAux, jMul_fin_fin, jAdd_fin_fin, JNum.fin.injEq]
  norm_num

lemma segTerm_fin (odds : MachineOdds) (W : MetricId → Option ℝ) (m : MetricId)
    (n k : JNum) (i : ℕ) (x : ℝ)
    (hWm : ∀ den, odds m = some den → (W m).isSome) :
    ∃ y, segTerm odds W m n k i (JNum.fin x) = JNum.fin y := by
  unfold segTerm
  cases h : odds m with
  | none => exact ⟨x, rfl⟩
  | some den =>
      obtain ⟨w, hw⟩ := Option.isSome_iff_exists.mp (hWm den h)
      exact ⟨x + w * binomLogLik n k (safeProbFromDenom (den.get? i)), by simp [hw]⟩

lemma totalTerm_fin (odds : MachineOdds) (W : MetricId → Option ℝ) (m : MetricId)
    (n k : JNum) (i : ℕ) (x : ℝ)
    (hWm : ∀ den, odds m = some den → (W m).isSome) :
    ∃ y, totalTerm odds W m n k i (JNum.fin x) = JNum.fin y := by
  unfold totalTerm
  cases h : odds m with
  | none => exact ⟨x, rfl⟩
  | some den =>
      obtain ⟨w, hw⟩ := Option.isSome_iff_exists.mp (hWm den h)
      by_cases hg : jGeB k (JNum.fin 0) = true
      · exact ⟨x + w * binomLogLik n k (safeProbFromDenom (den.get? i)), by simp [hw, hg]⟩
      · exact ⟨x, by simp [hg]⟩

lemma aggScore_fin (odds : MachineOdds) (W : MetricId → Option ℝ)
    (segG totalG k1 k2 k3 k4 k5 k6 k7 k8 k9 : JNum) (i : ℕ)
    (hW : ∀ m den, odds m = some den → (W m).isSome) :
    ∃ y, aggScore odds W segG totalG k1 k2 k3 k4 k5 k6 k7 k8 k9 i = JNum.fin y := by
  unfold aggScore
  dsimp only
  obtain ⟨y1, e1⟩ := segTerm_fin odds W MetricId.singleReg segG k3 i 0 (fun den h => hW _ den h)
  rw [e1]
  obtain ⟨y2, e2⟩ := segTerm_fin odds W MetricId.cherryReg segG k4 i y1 (fun den h => hW _ den h)
  rw [e2]
  obtain ⟨y3, e3⟩ := segTerm_fin odds W MetricId.singleBig segG k1 i y2 (fun den h => hW _ den h)
  rw [e3]
  obtain ⟨y4, e4⟩ := segTerm_fin odds W MetricId.cherryBig segG k2 i y3 (fun den h => hW _ den h)
  rw [e4]
  obtain ⟨y5, e5⟩ := segTerm_fin odds W MetricId.grape segG k5 i y4 (fun den h => hW _ den h)
  rw [e5]
  obtain ⟨y6, e6⟩ := segTerm_fin odds W MetricId.nonOverlapCherry segG k6 i y5 (fun den h => hW _ den h)
  rw [e6]
  obtain ⟨y7, e7⟩ := segTerm_fin odds W MetricId.midCherryBig segG k7 i y6 (fun den h => hW _ den h)
  rw [e7]
  by_cases hg : jGtB totalG (JNum.fin 0) = true
  · rw [if_pos hg]
    obtain ⟨y8, e8⟩ := totalTerm_fin odds W MetricId.totalBig totalG k8 i y7 (fun den h => hW _ den h)
    rw [e8]
    obtain ⟨y9, e9⟩ := totalTerm_fin odds W MetricId.totalReg totalG k9 i y8 (fun den h => hW _ den h)
    rw [e9]
    exact ⟨y9, rfl⟩
  · rw [if_neg hg]
    exact ⟨y7, rfl⟩

lemma expSetting_fin6 (p0 p1 p2 p3 p4 p5 : ℝ) :
    expSetting [JNum.fin p0, JNum.fin p1, JNum.fin p2, JNum.fin p3, JNum.fin p4, JNum.fin p5]
      = JNum.fin (1 * p0 + 2 * p1 + 3 * p2 + 4 * p3 + 5 * p4 + 6 * p5) := by
  unfold expSetting
  simp only [expSettingAux, jMul_fin_fin, jAdd_fin_fin, JNum.fin.injEq]
  push_cast
  ring

lemma replicate6_fin_zero :
    List.replicate 6 (JNum.fin (0 : ℝ))
      = [JNum.fin 0, JNum.fin 0, JNum.fin 0, JNum.fin 0, JNum.fin 0, JNum.fin 0] := rfl

lemma infer_uniform_core (cat : String → Option MachineDef) (machine : String)
    (dm : MachineDef) (stats : AdjustedStats)
    (hcat : cat machine = some dm)
    (hlen : ∀ m den, dm.odds m = some den → den.length = 6)
    (hseg : jsFinOr0 (coerceCount stats.segGames) ≤ 0)
    (hguard : jGtB (coerceCount (jOfOpt0 stats.totalGames)) (JNum.fin 0) = false) :
    ∃ r, infer cat machine stats = Except.ok r
      ∧ r.posterior = List.replicate 6 (JNum.fin (1 / 6))
      ∧ r.expectedSetting = JNum.fin 3.5
      ∧ r.p4plus = JNum.fin (1 / 2)
      ∧ r.p56 = JNum.fin (1 / 3) := by
  have hW : ∀ m den, dm.odds m = some den →
      (buildWeights machine dm.odds (coerceCount stats.segGames) m).isSome := by
    intro m den h
    rw [buildWeights_some machine dm.odds _ h (hlen m den h)]
    rfl
  have hagg : ∀ i : ℕ,
      aggScore dm.odds (buildWeights machine dm.odds (coerceCount stats.segGames))
        (coerceCount stats.segGames) (coerceCount (jOfOpt0 stats.totalGames))
        (coerceCount stats.bigSingle) (coerceCount stats.bigCherry)
        (coerceCount stats.regSingle) (coerceCount stats.regCherry)
        (coerceCount stats.grapes) (coerceCount stats.nonOverlapCherries)
        (coerceCount (jOfOpt0 stats.midCherryBig)) (coerceCount (jOfOpt0 stats.totalBig))
        (coerceCount (jOfOpt0 stats.totalReg)) i = JNum.fin 0 := by
    intro i
    exact aggScore_games_nonpos _ _ _ _ _ _ _ _ _ _ _ _ _ i hW hseg hguard
  simp only [infer, hcat]
  refine ⟨_, rfl, ?_, ?_, ?_, ?_⟩
  · simp only [hagg, List.ofFn_const, replicate6_fin_zero, softmax_zero6]
  · simp only [hagg, List.ofFn_const, replicate6_fin_zero, softmax_zero6]
    exact expSetting_uniform
  · simp only [hagg, List.ofFn_const, replicate6_fin_zero, softmax_zero6]
    show jAdd (jAdd (JNum.fin (1/6)) (JNum.fin (1/6))) (JNum.fin (1/6)) = JNum.fin (1/2)
    simp only [jAdd_fin_fin, JNum.fin.injEq]
    norm_num
  · simp only [hagg, List.ofFn_const, replicate6_fin_zero, softmax_zero6]
    show jAdd (JNum.fin (1/6)) (JNum.fin (1/6)) = JNum.fin (1/3)
    simp only [jAdd_fin_fin, JNum.fin.injEq]
    norm_num

lemma ofFn6 (g : Fin 6 → JNum) : List.ofFn g = [g 0, g 1, g 2, g 3, g 4, g 5] := by
  rfl

/-- C1: for every known device identifier (whose catalog entries each have
exactly six denominators) and every observation bundle, `infer` returns a
coherent probability summary: the six posterior entries are each in `[0,1]`
and sum to 1 within `1e-9`, the expected setting lies in `[1,6]`, `p4plus`
is the sum of the posterior entries for settings 4,5,6, `p56` the sum for
settings 5,6, and `p4plus ≥ p56`. -/
theorem claim_C1_posterior_coherent
    (cat : String → Option MachineDef) (machine : String) (dm : MachineDef)
    (stats : AdjustedStats) (hcat : cat machine = some dm)
    (hlen : ∀ m den, dm.odds m = some den → den.length = 6) :
    ∃ r p0 p1 p2 p3 p4 p5,
      infer cat machine stats = Except.ok r
      ∧ r.posterior = [JNum.fin p0, JNum.fin p1, JNum.fin p2, JNum.fin p3,
          JNum.fin p4, JNum.fin p5]
      ∧ (0 ≤ p0 ∧ p0 ≤ 1) ∧ (0 ≤ p1 ∧ p1 ≤ 1) ∧ (0 ≤ p2 ∧ p2 ≤ 1)
      ∧ (0 ≤ p3 ∧ p3 ≤ 1) ∧ (0 ≤ p4 ∧ p4 ≤ 1) ∧ (0 ≤ p5 ∧ p5 ≤ 1)
      ∧ |p0 + p1 + p2 + p3 + p4 + p5 - 1| ≤ 1e-9
      ∧ (∃ es, r.expectedSetting = JNum.fin es ∧ 1 ≤ es ∧ es ≤ 6)
      ∧ r.p4plus = JNum.fin (p3 + p4 + p5)
      ∧ r.p56 = JNum.fin (p4 + p5)
      ∧ p4 + p5 ≤ p3 + p4 + p5 := by
  have hW : ∀ m den, dm.odds m = some den →
      (buildWeights machine dm.odds (coerceCount stats.segGames) m).isSome := by
    intro m den h
    rw [buildWeights_some machine dm.odds _ h (hlen m den h)]
    rfl
  have hagg : ∀ i : Fin 6, ∃ y,
      aggScore dm.odds (buildWeights machine dm.odds (coerceCount stats.segGames))
        (coerceCount stats.segGames) (coerceCount (jOfOpt0 stats.totalGames))
        (coerceCount stats.bigSingle) (coerceCount stats.bigCherry)
        (coerceCount stats.regSingle) (coerceCount stats.regCherry)
        (coerceCount stats.grapes) (coerceCount stats.nonOverlapCherries)
        (coerceCount (jOfOpt0 stats.midCherryBig)) (coerceCount (jOfOpt0 stats.totalBig))
        (coerceCount (jOfOpt0 stats.totalReg)) (i : ℕ) = JNum.fin y := by
    intro i
    exact aggScore_fin _ _ _ _ _ _ _ _ _ _ _ _ _ _ hW
  choose A hA using hagg
  have hpost :
      softmaxLogWeights (List.ofFn fun i : Fin 6 =>
        aggScore dm.odds (buildWeights machine dm.odds (coerceCount stats.segGames))
          (coerceCount stats.segGames) (coerceCount (jOfOpt0 stats.totalGames))
          (coerceCount stats.bigSingle) (coerceCount stats.bigCherry)
          (coerceCount stats.regSingle) (coerceCount stats.regCherry)
          (coerceCount stats.grapes) (coerceCount stats.nonOverlapCherries)
          (coerceCount (jOfOpt0 stats.midCherryBig)) (coerceCount (jOfOpt0 stats.totalBig))
          (coerceCount (jOfOpt0 stats.totalReg)) (i : ℕ))
        = [JNum.fin (smEntry (A 0) (A 1) (A 2) (A 3) (A 4) (A 5) (A 0)),
           JNum.fin (smEntry (A 0) (A 1) (A 2) (A 3) (A 4) (A 5) (A 1)),
           JNum.fin (smEntry (A 0) (A 1) (A 2) (A 3) (A 4) (A 5) (A 2)),
           JNum.fin (smEntry (A 0) (A 1) (A 2) (A 3) (A 4) (A 5) (A 3)),
           JNum.fin (smEntry (A 0) (A 1) (A 2) (A 3) (A 4) (A 5) (A 4)),
           JNum.fin (smEntry (A 0) (A 1) (A 2) (A 3) (A 4) (A 5) (A 5))] := by
    simp only [hA, ofFn6]
    exact softmax_fin6 (A 0) (A 1) (A 2) (A 3) (A 4) (A 5)
  have hsum := smEntry_sum (A 0) (A 1) (A 2) (A 3) (A 4) (A 5)
  have hp0 := smEntry_pos (A 0) (A 1) (A 2) (A 3) (A 4) (A 5) (A 0)
  have hp1 := smEntry_pos (A 0) (A 1) (A 2) (A 3) (A 4) (A 5) (A 1)
  have hp2 := smEntry_pos (A 0) (A 1) (A 2) (A 3) (A 4) (A 5) (A 2)
  have hp3 := smEntry_pos (A 0) (A 1) (A 2) (A 3) (A 4) (A 5) (A 3)
  have hp4 := smEntry_pos (A 0) (A 1) (A 2) (A 3) (A 4) (A 5) (A 4)
  have hp5 := smEntry_pos (A 0) (A 1) (A 2) (A 3) (A 4) (A 5) (A 5)
  have hq0 := smEntry_le_one (A 0) (A 1) (A 2) (A 3) (A 4) (A 5) (A 0) (by tauto)
  have hq1 := smEntry_le_one (A 0) (A 1) (A 2) (A 3) (A 4) (A 5) (A 1) (by tauto)
  have hq2 := smEntry_le_one (A 0) (A 1) (A 2) (A 3) (A 4) (A 5) (A 2) (by tauto)
  have hq3 := smEntry_le_one (A 0) (A 1) (A 2) (A 3) (A 4) (A 5) (A 3) (by tauto)
  have hq4 := smEntry_le_one (A 0) (A 1) (A 2) (A 3) (A 4) (A 5) (A 4) (by tauto)
  have hq5 := smEntry_le_one (A 0) (A 1) (A 2) (A 3) (A 4) (A 5) (A 5) (by tauto)
  simp only [infer, hcat]
  refine ⟨_, smEntry (A 0) (A 1) (A 2) (A 3) (A 4) (A 5) (A 0),
    smEntry (A 0) (A 1) (A 2) (A 3) (A 4) (A 5) (A 1),
    smEntry (A 0) (A 1) (A 2) (A 3) (A 4) (A 5) (A 2),
    smEntry (A 0) (A 1) (A 2) (A 3) (A 4) (A 5) (A 3),
    smEntry (A 0) (A 1) (A 2) (A 3) (A 4) (A 5) (A 4),
    smEntry (A 0) (A 1) (A 2) (A 3) (A 4) (A 5) (A 5),
    rfl, ?_, ⟨le_of_lt hp0, hq0⟩, ⟨le_of_lt hp1, hq1⟩, ⟨le_of_lt hp2, hq2⟩,
    ⟨le_of_lt hp3, hq3⟩, ⟨le_of_lt hp4, hq4⟩, ⟨le_of_lt hp5, hq5⟩,
    ?_, ?_, ?_, ?_, by linarith⟩
  · exact hpost
  · rw [hsum]
    norm_num
  · refine ⟨1 * smEntry (A 0) (A 1) (A 2) (A 3) (A 4) (A 5) (A 0)
      + 2 * smEntry (A 0) (A 1) (A 2) (A 3) (A 4) (A 5) (A 1)
      + 3 * smEntry (A 0) (A 1) (A 2) (A 3) (A 4) (A 5) (A 2)
      + 4 * smEntry (A 0) (A 1) (A 2) (A 3) (A 4) (A 5) (A 3)
      + 5 * smEntry (A 0) (A 1) (A 2) (A 3) (A 4) (A 5) (A 4)
      + 6 * smEntry (A 0) (A 1) (A 2) (A 3) (A 4) (A 5) (A 5), ?_, ?_, ?_⟩
    · show expSetting (softmaxLogWeights _) = _
      rw [hpost, expSetting_fin6]
    · linarith
    · linarith
  · show jAdd (jAdd (jAt (softmaxLogWeights _) 3) (jAt (softmaxLogWeights _) 4))
      (jAt (softmaxLogWeights _) 5) = _
    rw [hpost]
    simp only [jAt, List.get?, Option.getD, jAdd_fin_fin]
  · show jAdd (jAt (softmaxLogWeights _) 4) (jAt (softmaxLogWeights _) 5) = _
    rw [hpost]
    simp only [jAt, List.get?, Option.getD, jAdd_fin_fin]

lemma mdefG6_len : ∀ m den, mdefG6.odds m = some den → den.length = 6 := by
  intro m den h
  by_cases hm : m = MetricId.grape
  · rw [show mdefG6.odds m = some [(6:ℝ), 6, 6, 6, 6, 6] from by simp [mdefG6, oddsG6, hm]] at h
    cases h
    rfl
  · simp [mdefG6, oddsG6, hm] at h

/-- C1 witness: the coherence theorem applied to the fixture catalog, device
`"X"`, and a bundle containing a NaN count. -/
theorem claim_C1_witness :
    (catG6 "X" = some mdefG6)
    ∧ (∀ m den, mdefG6.odds m = some den → den.length = 6)
    ∧ (∃ r p0 p1 p2 p3 p4 p5,
        infer catG6 "X" statsC2 = Except.ok r
        ∧ r.posterior = [JNum.fin p0, JNum.fin p1, JNum.fin p2, JNum.fin p3,
            JNum.fin p4, JNum.fin p5]
        ∧ (0 ≤ p0 ∧ p0 ≤ 1) ∧ (0 ≤ p1 ∧ p1 ≤ 1) ∧ (0 ≤ p2 ∧ p2 ≤ 1)
        ∧ (0 ≤ p3 ∧ p3 ≤ 1) ∧ (0 ≤ p4 ∧ p4 ≤ 1) ∧ (0 ≤ p5 ∧ p5 ≤ 1)
        ∧ |p0 + p1 + p2 + p3 + p4 + p5 - 1| ≤ 1e-9
        ∧ (∃ es, r.expectedSetting = JNum.fin es ∧ 1 ≤ es ∧ es ≤ 6)
        ∧ r.p4plus = JNum.fin (p3 + p4 + p5)
        ∧ r.p56 = JNum.fin (p4 + p5)
        ∧ p4 + p5 ≤ p3 + p4 + p5) :=
  ⟨rfl, mdefG6_len, claim_C1_posterior_coherent catG6 "X" mdefG6 statsC2 rfl mdefG6_len⟩

/-- C8: an all-zero bundle (zero segment games, all counts zero, no
cumulative totals) yields the uniform posterior and expected setting 3.5 on
every known device with well-formed tables. -/
theorem claim_C8_zero_bundle_uniform
    (cat : String → Option MachineDef) (machine : String) (dm : MachineDef)
    (hcat : cat machine = some dm)
    (hlen : ∀ m den, dm.odds m = some den → den.length = 6) :
    ∃ r, infer cat machine statsZero = Except.ok r
      ∧ r.posterior = List.replicate 6 (JNum.fin (1 / 6))
      ∧ r.expectedSetting = JNum.fin 3.5 := by
  have hseg : jsFinOr0 (coerceCount statsZero.segGames) ≤ 0 := by
    show jsFinOr0 (coerceCount (JNum.fin 0)) ≤ 0
    rw [coerceCount_fin, truncR_zero, jsFinOr0_fin]
    norm_num
  have hguard : jGtB (coerceCount (jOfOpt0 statsZero.totalGames)) (JNum.fin 0) = false := by
    show jGtB (coerceCount (jOfOpt0 none)) (JNum.fin 0) = false
    rw [jOfOpt0_none, coerceCount_fin, truncR_zero, jGtB_fin_fin]
    simp
  obtain ⟨r, h1, h2, h3, _, _⟩ :=
    infer_uniform_core cat machine dm statsZero hcat hlen hseg hguard
  exact ⟨r, h1, h2, h3⟩

/-- C8 witness: the all-zero-bundle theorem applied to the fixture catalog. -/
theorem claim_C8_witness :
    (catG6 "X" = some mdefG6)
    ∧ (∃ r, infer catG6 "X" statsZero = Except.ok r
        ∧ r.posterior = List.replicate 6 (JNum.fin (1 / 6))
        ∧ r.expectedSetting = JNum.fin 3.5) :=
  ⟨rfl, claim_C8_zero_bundle_uniform catG6 "X" mdefG6 rfl mdefG6_len⟩

lemma segCond_nonpos (x : JNum)
    (h : x = JNum.nan ∨ x = JNum.pinf ∨ x = JNum.ninf ∨ ∃ v, v ≤ 0 ∧ x = JNum.fin v) :
    jsFinOr0 (coerceCount x) ≤ 0 := by
  rcases h with rfl | rfl | rfl | ⟨v, hv, rfl⟩
  · rw [coerceCount_nan]
    exact le_of_eq rfl
  · rw [coerceCount_pinf]
    exact le_of_eq rfl
  · rw [coerceCount_ninf, jsFinOr0_fin]
  · rw [coerceCount_fin, jsFinOr0_fin, max_eq_left (truncR_nonpos hv)]

lemma totCond_guard (o : Option JNum)
    (h : o = none ∨ ∃ v, v ≤ 0 ∧ o = some (JNum.fin v)) :
    jGtB (coerceCount (jOfOpt0 o)) (JNum.fin 0) = false := by
  rcases h with rfl | ⟨v, hv, rfl⟩
  · rw [jOfOpt0_none, coerceCount_fin, truncR_zero, jGtB_fin_fin]
    simp
  · rw [jOfOpt0_some, coerceCount_fin, max_eq_left (truncR_nonpos hv), jGtB_fin_fin]
    simp

/-- C10: for a known device with well-formed tables, any two bundles whose
segment game count is nonpositive or non-finite and whose cumulative game
count is nonpositive or absent produce the same (uniform) posterior and the
same expected setting, `p4plus` and `p56`, regardless of every observed
metric count. -/
theorem claim_C10_degenerate_counts_ignored
    (cat : String → Option MachineDef) (machine : String) (dm : MachineDef)
    (s1 s2 : AdjustedStats) (hcat : cat machine = some dm)
    (hlen : ∀ m den, dm.odds m = some den → den.length = 6)
    (h1seg : s1.segGames = JNum.nan ∨ s1.segGames = JNum.pinf ∨ s1.segGames = JNum.ninf
      ∨ ∃ v, v ≤ 0 ∧ s1.segGames = JNum.fin v)
    (h1tot : s1.totalGames = none ∨ ∃ v, v ≤ 0 ∧ s1.totalGames = some (JNum.fin v))
    (h2seg : s2.segGames = JNum.nan ∨ s2.segGames = JNum.pinf ∨ s2.segGames = JNum.ninf
      ∨ ∃ v, v ≤ 0 ∧ s2.segGames = JNum.fin v)
    (h2tot : s2.totalGames = none ∨ ∃ v, v ≤ 0 ∧ s2.totalGames = some (JNum.fin v)) :
    ∃ r1 r2, infer cat machine s1 = Except.ok r1 ∧ infer cat machine s2 = Except.ok r2
      ∧ r1.posterior = List.replicate 6 (JNum.fin (1 / 6))
      ∧ r2.posterior = r1.posterior
      ∧ r1.expectedSetting = r2.expectedSetting
      ∧ r1.p4plus = r2.p4plus
      ∧ r1.p56 = r2.p56 := by
  obtain ⟨r1, e1, q1, x1, y1, z1⟩ :=
    infer_uniform_core cat machine dm s1 hcat hlen (segCond_nonpos _ h1seg) (totCond_guard _ h1tot)
  obtain ⟨r2, e2, q2, x2, y2, z2⟩ :=
    infer_uniform_core cat machine dm s2 hcat hlen (segCond_nonpos _ h2seg) (totCond_guard _ h2tot)
  exact ⟨r1, r2, e1, e2, q1, by rw [q1, q2], by rw [x1, x2], by rw [y1, y2], by rw [z1, z2]⟩

/-- C10 witness: two degenerate bundles with wildly different counts give
identical posterior summaries. -/
theorem claim_C10_witness :
    ∃ r1 r2,
      infer catG6 "X"
        { statsZero with
          segGames := JNum.nan
          bigSingle := JNum.fin 999
          grapes := JNum.pinf } = Except.ok r1
      ∧ infer catG6 "X"
          { statsZero with
            segGames := JNum.fin (-5)
            bigCherry := JNum.fin 123
            totalGames := some (JNum.fin 0)
            totalBig := some (JNum.fin 50) } = Except.ok r2
      ∧ r1.posterior = List.replicate 6 (JNum.fin (1 / 6))
      ∧ r2.posterior = r1.posterior
      ∧ r1.expectedSetting = r2.expectedSetting
      ∧ r1.p4plus = r2.p4plus
      ∧ r1.p56 = r2.p56 :=
  claim_C10_degenerate_counts_ignored catG6 "X" mdefG6 _ _ rfl mdefG6_len
    (Or.inl rfl) (Or.inl rfl)
    (Or.inr (Or.inr (Or.inr ⟨-5, by norm_num, rfl⟩))) (Or.inr ⟨0, le_rfl, rfl⟩)

/-- C3: for a present metric with six positive denominators and any segment
game count, the built weight exists and lies in `[0.05, 3.0]`, with lower
bound `0.60` for the baseline small-symbol metric (grape). -/
theorem claim_C3_weight_bounds (mach : String) (odds : MachineOdds) (segGames : JNum)
    (m : MetricId) (den : List ℝ) (hden : odds m = some den) (hlen : den.length = 6)
    (hpos : ∀ d ∈ den, 0 < d) :
    ∃ w, buildWeights mach odds segGames m = some w
      ∧ (if m = MetricId.grape then (0.60 : ℝ) else 0.05) ≤ w ∧ w ≤ 3.0 := by
  refine ⟨finWeight odds (jMax (JNum.fin 0) segGames) m den,
    buildWeights_some mach odds segGames hden hlen, ?_, finWeight_le _ _ _ _⟩
  exact finWeight_ge odds (jMax (JNum.fin 0) segGames) m den

/-- C3 witness: the weight-bounds theorem applied to the grape-only fixture
table with a NaN segment game count. -/
theorem claim_C3_witness :
    (oddsG6 MetricId.grape = some [6, 6, 6, 6, 6, 6])
    ∧ (∃ w, buildWeights "X" oddsG6 JNum.nan MetricId.grape = some w
        ∧ (if MetricId.grape = MetricId.grape then (0.60 : ℝ) else 0.05) ≤ w ∧ w ≤ 3.0) := by
  refine ⟨rfl, ?_⟩
  refine claim_C3_weight_bounds "X" oddsG6 JNum.nan MetricId.grape [6, 6, 6, 6, 6, 6] rfl rfl ?_
  intro d hd
  simp only [List.mem_cons, List.not_mem_nil, or_false] at hd
  rcases hd with rfl | rfl | rfl | rfl | rfl | rfl <;> norm_num

lemma softmax_all_ninf :
    softmaxLogWeights (List.replicate 6 JNum.ninf) = List.replicate 6 JNum.nan := rfl

/-- C5 (amended): whenever the guard `z <= 0` of the Posterior Normalizer is
true (as a JS comparison) the uniform distribution is returned; but six
`-Infinity` scores make `z` NaN, the guard does not fire, and the result is
six NaN entries rather than the uniform distribution. -/
theorem claim_C5_softmax_fallback :
    (∀ logw : List JNum,
      jLeB ((logw.map (fun x => jExp (jSub x (jMaxList logw)))).foldl jAdd (JNum.fin 0))
        (JNum.fin 0) = true →
      softmaxLogWeights logw = List.replicate 6 (JNum.fin (1 / 6)))
    ∧ softmaxLogWeights (List.replicate 6 JNum.ninf) = List.replicate 6 JNum.nan := by
  constructor
  · intro logw h
    simp only [softmaxLogWeights]
    rw [if_pos h]
  · exact softmax_all_ninf

/-- C5 counterexample: on six `-Infinity` scores the normalizer does not
return the uniform distribution (it returns six NaN entries). -/
theorem claim_C5_counterexample :
    softmaxLogWeights (List.replicate 6 JNum.ninf) ≠ List.replicate 6 (JNum.fin (1 / 6)) := by
  rw [softmax_all_ninf]
  intro h
  exact absurd h (by simp [List.replicate])

/-- C5 witness: the guarded-fallback branch applied to the empty score list,
where the exponential sum is exactly 0. -/
theorem claim_C5_witness :
    (jLeB ((([] : List JNum).map (fun x => jExp (jSub x (jMaxList ([] : List JNum))))).foldl
        jAdd (JNum.fin 0)) (JNum.fin 0) = true)
    ∧ softmaxLogWeights ([] : List JNum) = List.replicate 6 (JNum.fin (1 / 6)) := by
  have h : jLeB ((([] : List JNum).map
      (fun x => jExp (jSub x (jMaxList ([] : List JNum))))).foldl jAdd (JNum.fin 0))
      (JNum.fin 0) = true := by
    simp only [List.map_nil, List.foldl_nil, jLeB_fin_fin, decide_eq_true_eq]
    exact le_rfl
  exact ⟨h, claim_C5_softmax_fallback.1 [] h⟩

lemma grapeFromDiff_fin_le (g bb rb d c : ℝ) (hg : 0 < g)
    (hc : c = d + 3 * g - (bb * 239.25 + rb * 95.25 + g * (3 * (1 / 7.3) + 2 * (1 / 35))))
    (hle : c ≤ 0) :
    grapeFromDiff (JNum.fin g) (JNum.fin bb) (JNum.fin rb) (some (JNum.fin d))
      = (none, some (JNum.fin c)) := by
  have hguard : jGtB (JNum.fin g) (JNum.fin 0) = true := by
    rw [jGtB_fin_fin]
    exact decide_eq_true hg
  have hgc : jSub (jAdd (JNum.fin d) (jMul (JNum.fin g) (JNum.fin 3)))
      (jAdd (jAdd (jMul (JNum.fin bb) (JNum.fin 239.25)) (jMul (JNum.fin rb) (JNum.fin 95.25)))
        (jMul (JNum.fin g) (JNum.fin (3 * (1 / 7.3) + 2 * (1 / 35))))) = JNum.fin c := by
    simp only [jMul_fin_fin, jAdd_fin_fin, jSub_fin_fin, JNum.fin.injEq]
    rw [hc]
    ring
  simp only [grapeFromDiff, hguard, not_true, if_false, hgc, jIsFinite_fin, jLeB_fin_fin,
    decide_eq_true hle, not_false_iff, or_true, if_true]

lemma grapeFromDiff_fin_pos (g bb rb d c : ℝ) (hg : 0 < g)
    (hc : c = d + 3 * g - (bb * 239.25 + rb * 95.25 + g * (3 * (1 / 7.3) + 2 * (1 / 35))))
    (hpos : 0 < c) :
    grapeFromDiff (JNum.fin g) (JNum.fin bb) (JNum.fin rb) (some (JNum.fin d))
      = (some (JNum.fin (8 * g / c)), some (JNum.fin c)) := by
  have hguard : jGtB (JNum.fin g) (JNum.fin 0) = true := by
    rw [jGtB_fin_fin]
    exact decide_eq_true hg
  have hgc : jSub (jAdd (JNum.fin d) (jMul (JNum.fin g) (JNum.fin 3)))
      (jAdd (jAdd (jMul (JNum.fin bb) (JNum.fin 239.25)) (jMul (JNum.fin rb) (JNum.fin 95.25)))
        (jMul (JNum.fin g) (JNum.fin (3 * (1 / 7.3) + 2 * (1 / 35))))) = JNum.fin c := by
    simp only [jMul_fin_fin, jAdd_fin_fin, jSub_fin_fin, JNum.fin.injEq]
    rw [hc]
    ring
  have hodds : jDiv (jMul (JNum.fin 8) (JNum.fin g)) (JNum.fin c) = JNum.fin (8 * g / c) := by
    rw [jMul_fin_fin, jDiv_fin_fin _ _ (ne_of_gt hpos)]
  have hro : (0 : ℝ) < 8 * g / c := div_pos (by linarith) hpos
  simp only [grapeFromDiff, hguard, not_true, if_false, hgc, jIsFinite_fin, jLeB_fin_fin,
    decide_eq_false (not_le.mpr hpos), not_false_iff, or_false, if_false, hodds,
    decide_eq_false (not_le.mpr hro)]
  simp

/-- C4 (amended): the Reverse Estimator runs only when a differential is
supplied and the (coerced) segment game count is positive; on finite inputs
it computes `targetSymbolCoins = D + 3G - (BB*239.25 + RB*95.25 +
G*(3*(1/7.3) + 2*(1/35)))`, reports only the raw coin figure when that
value is nonpositive, reports it together with the implied denominator
`8*G / targetSymbolCoins` when it is positive, and omits both fields when
it is non-finite; inside `infer`, `BB` and `RB` are the sums of the two
tier-A and the two tier-B segment counts. -/
theorem claim_C4_reverse_estimator :
    (∀ games big reg, grapeFromDiff games big reg none = (none, none))
    ∧ (∀ games big reg D, jGtB games (JNum.fin 0) = false →
        grapeFromDiff games big reg (some D) = (none, none))
    ∧ (∀ g bb rb d c : ℝ, 0 < g →
        c = d + 3 * g - (bb * 239.25 + rb * 95.25 + g * (3 * (1 / 7.3) + 2 * (1 / 35))) →
        (c ≤ 0 → grapeFromDiff (JNum.fin g) (JNum.fin bb) (JNum.fin rb) (some (JNum.fin d))
            = (none, some (JNum.fin c)))
        ∧ (0 < c → grapeFromDiff (JNum.fin g) (JNum.fin bb) (JNum.fin rb) (some (JNum.fin d))
            = (some (JNum.fin (8 * g / c)), some (JNum.fin c))))
    ∧ (∀ (cat : String → Option MachineDef) machine dm stats r1, cat machine = some dm →
        infer cat machine stats = Except.ok r1 →
        (r1.grapeOddsFromDiff, r1.grapeCoinsFromDiff)
          = grapeFromDiff (coerceCount stats.segGames)
              (jAdd (coerceCount stats.bigSingle) (coerceCount stats.bigCherry))
              (jAdd (coerceCount stats.regSingle) (coerceCount stats.regCherry)) stats.diff) := by
  refine ⟨fun games big reg => rfl, ?_, ?_, ?_⟩
  · intro games big reg D h
    simp [grapeFromDiff, h]
  · intro g bb rb d c hg hc
    exact ⟨grapeFromDiff_fin_le g bb rb d c hg hc, grapeFromDiff_fin_pos g bb rb d c hg hc⟩
  · intro cat machine dm stats r1 hcat hr
    simp only [infer, hcat] at hr
    cases hr
    rfl

/-- C4 counterexample: with a supplied non-finite differential and ten
segment games, `targetSymbolCoins` is non-finite and the estimator reports
neither the raw coin figure nor the rate, contradicting the claim that the
raw coin figure is reported in the non-finite case. -/
theorem claim_C4_counterexample :
    jGtB (JNum.fin 10) (JNum.fin 0) = true
    ∧ grapeFromDiff (JNum.fin 10) (JNum.fin 0) (JNum.fin 0) (some JNum.pinf)
        = (none, none) := by
  constructor
  · rw [jGtB_fin_fin]
    exact decide_eq_true (by norm_num)
  · have hguard : jGtB (JNum.fin 10) (JNum.fin 0) = true := by
      rw [jGtB_fin_fin]
      exact decide_eq_true (by norm_num)
    simp only [grapeFromDiff, hguard, not_true, if_false]
    rfl

/-- C4 witness: the closed-form case applied at `G = 10`, `BB = RB = 0`,
`D = 500`, where the coin total is positive and both fields are produced. -/
theorem claim_C4_witness :
    (0 : ℝ) < 10
    ∧ (0 : ℝ) < 500 + 3 * 10 - (0 * 239.25 + 0 * 95.25 + 10 * (3 * (1 / 7.3) + 2 * (1 / 35)))
    ∧ grapeFromDiff (JNum.fin 10) (JNum.fin 0) (JNum.fin 0) (some (JNum.fin 500))
        = (some (JNum.fin (8 * 10 /
            (500 + 3 * 10 - (0 * 239.25 + 0 * 95.25 + 10 * (3 * (1 / 7.3) + 2 * (1 / 35)))))),
           some (JNum.fin
            (500 + 3 * 10 - (0 * 239.25 + 0 * 95.25 + 10 * (3 * (1 / 7.3) + 2 * (1 / 35)))))) :=
  ⟨by norm_num, by norm_num,
    (claim_C4_reverse_estimator.2.2.1 10 0 0 500 _ (by norm_num) rfl).2 (by norm_num)⟩

/-! Efficiency-factor lemmas for the Weight Builder. -/

lemma avgProb_ge (den : List ℝ) : 1e-12 ≤ avgProb den := by
  unfold avgProb
  refine le_min (by norm_num) (le_max_left _ _)

lemma avgProb_pos (den : List ℝ) : 0 < avgProb den :=
  lt_of_lt_of_le (by norm_num) (avgProb_ge den)

lemma effScore_fin (g : ℝ) (hg : 0 ≤ g) (den : List ℝ) :
    effScore (JNum.fin g) den = JNum.fin (Real.sqrt (g * avgProb den)) := by
  unfold effScore
  rw [jMul_fin_fin]
  show (if g * avgProb den < 0 then JNum.nan else JNum.fin (Real.sqrt (g * avgProb den))) = _
  rw [if_neg (not_lt.mpr (mul_nonneg hg (le_of_lt (avgProb_pos den))))]

lemma effFold_inv (odds : MachineOdds) (g : ℝ) (hg : 0 ≤ g) :
    ∀ (L : List MetricId) (a : ℝ),
      ∃ E, L.foldl
          (fun acc m =>
            match odds m with
            | some den =>
                if den.length = 6 then
                  (if jGtB (effScore (JNum.fin g) den) acc then effScore (JNum.fin g) den else acc)
                else acc
            | none => acc)
          (JNum.fin a) = JNum.fin E
        ∧ a ≤ E
        ∧ (∀ m ∈ L, ∀ den, odds m = some den → den.length = 6 →
            Real.sqrt (g * avgProb den) ≤ E)
        ∧ (E = a ∨ ∃ m, m ∈ L ∧ ∃ den, odds m = some den ∧ den.length = 6
            ∧ E = Real.sqrt (g * avgProb den)) := by
  intro L
  induction L with
  | nil =>
      intro a
      exact ⟨a, rfl, le_rfl, by simp, Or.inl rfl⟩
  | cons m L ih =>
      intro a
      rw [List.foldl_cons]
      cases hm : odds m with
      | none =>
          dsimp only
          obtain ⟨E, hfold, hle, hub, hprov⟩ := ih a
          refine ⟨E, hfold, hle, ?_, ?_⟩
          · intro m2 hm2 den2 hden2 hlen2
            rcases List.mem_cons.mp hm2 with rfl | hm2
            · rw [hm] at hden2
              cases hden2
            · exact hub m2 hm2 den2 hden2 hlen2
          · rcases hprov with h | ⟨m2, hm2, den2, hden2, hlen2, hE⟩
            · exact Or.inl h
            · exact Or.inr ⟨m2, List.mem_cons_of_mem m hm2, den2, hden2, hlen2, hE⟩
      | some den =>
          dsimp only
          by_cases hlen : den.length = 6
          · rw [if_pos hlen, effScore_fin g hg den, jGtB_fin_fin]
            by_cases hlt : a < Real.sqrt (g * avgProb den)
            · rw [if_pos (decide_eq_true hlt)]
              obtain ⟨E, hfold, hle, hub, hprov⟩ := ih (Real.sqrt (g * avgProb den))
              refine ⟨E, hfold, by linarith, ?_, ?_⟩
              · intro m2 hm2 den2 hden2 hlen2
                rcases List.mem_cons.mp hm2 with rfl | hm2
                · rw [hm] at hden2
                  cases hden2
                  exact hle
                · exact hub m2 hm2 den2 hden2 hlen2
              · rcases hprov with h | ⟨m2, hm2, den2, hden2, hlen2, hE⟩
                · exact Or.inr ⟨m, List.mem_cons_self m L, den, hm, hlen, h⟩
                · exact Or.inr ⟨m2, List.mem_cons_of_mem m hm2, den2, hden2, hlen2, hE⟩
            · rw [if_neg (by simp [hlt])]
              obtain ⟨E, hfold, hle, hub, hprov⟩ := ih a
              refine ⟨E, hfold, hle, ?_, ?_⟩
              · intro m2 hm2 den2 hden2 hlen2
                rcases List.mem_cons.mp hm2 with rfl | hm2
                · rw [hm] at hden2
                  cases hden2
                  exact le_trans (not_lt.mp hlt) hle
                · exact hub m2 hm2 den2 hden2 hlen2
              · rcases hprov with h | ⟨m2, hm2, den2, hden2, hlen2, hE⟩
                · exact Or.inl h
                · exact Or.inr ⟨m2, List.mem_cons_of_mem m hm2, den2, hden2, hlen2, hE⟩
          · rw [if_neg hlen]
            obtain ⟨E, hfold, hle, hub, hprov⟩ := ih a
            refine ⟨E, hfold, hle, ?_, ?_⟩
            · intro m2 hm2 den2 hden2 hlen2
              rcases List.mem_cons.mp hm2 with rfl | hm2
              · rw [hm] at hden2
                cases hden2
                exact absurd hlen2 hlen
              · exact hub m2 hm2 den2 hden2 hlen2
            · rcases hprov with h | ⟨m2, hm2, den2, hden2, hlen2, hE⟩
              · exact Or.inl h
              · exact Or.inr ⟨m2, List.mem_cons_of_mem m hm2, den2, hden2, hlen2, hE⟩

lemma mem_metricsList (m : MetricId) : m ∈ metricsList := by
  cases m <;> simp [metricsList]

lemma effMax_fin (odds : MachineOdds) (g : ℝ) (hg : 0 ≤ g) :
    ∃ E, effMax odds (JNum.fin g) = JNum.fin E
      ∧ 1e-9 ≤ E
      ∧ (∀ m den, odds m = some den → den.length = 6 → Real.sqrt (g * avgProb den) ≤ E)
      ∧ (E = 1e-9 ∨ ∃ m, m ∈ metricsList ∧ ∃ den, odds m = some den ∧ den.length = 6
          ∧ E = Real.sqrt (g * avgProb den)) := by
  obtain ⟨E, hfold, hle, hub, hprov⟩ := effFold_inv odds g hg metricsList 1e-9
  exact ⟨E, hfold, hle, fun m den h1 h2 => hub m (mem_metricsList m) den h1 h2, hprov⟩

lemma effFactor_fin_bounds (odds : MachineOdds) (g : ℝ) (hg : 0 ≤ g)
    (m : MetricId) (den : List ℝ) (hden : odds m = some den) (hlen : den.length = 6) :
    ∃ fR, effFactor odds (JNum.fin g) den = JNum.fin fR ∧ 0.6 ≤ fR ∧ fR ≤ 1 := by
  obtain ⟨E, hE, hE9, hub, _⟩ := effMax_fin odds g hg
  have hEpos : (0 : ℝ) < E := lt_of_lt_of_le (by norm_num) hE9
  have he0 : (0 : ℝ) ≤ Real.sqrt (g * avgProb den) := Real.sqrt_nonneg _
  have heE : Real.sqrt (g * avgProb den) ≤ E := hub m den hden hlen
  have ht0 : (0 : ℝ) ≤ Real.sqrt (g * avgProb den) / E := div_nonneg he0 (le_of_lt hEpos)
  have ht1 : Real.sqrt (g * avgProb den) / E ≤ 1 := (div_le_one hEpos).mpr heE
  refine ⟨0.6 + 0.4 * (Real.sqrt (g * avgProb den) / E), ?_, by linarith, by linarith⟩
  unfold effFactor
  rw [hE, effScore_fin g hg den, jDiv_fin_fin _ _ (ne_of_gt hEpos), jMul_fin_fin, jAdd_fin_fin]

lemma effFactor_argmax_one (odds : MachineOdds) (g : ℝ) (hg : 1 ≤ g)
    (m : MetricId) (den : List ℝ) (hden : odds m = some den) (hlen : den.length = 6)
    (hmax : ∀ m2 den2, odds m2 = some den2 → den2.length = 6 →
      Real.sqrt (g * avgProb den2) ≤ Real.sqrt (g * avgProb den)) :
    effFactor odds (JNum.fin g) den = JNum.fin 1 := by
  have hg0 : (0 : ℝ) ≤ g := le_trans (by norm_num) hg
  obtain ⟨E, hE, hE9, hub, hprov⟩ := effMax_fin odds g hg0
  have hestar : (1e-6 : ℝ) ≤ Real.sqrt (g * avgProb den) := by
    have h1 : (1e-12 : ℝ) ≤ g * avgProb den := by
      have := avgProb_ge den
      nlinarith
    calc (1e-6 : ℝ) = Real.sqrt 1e-12 := by
          rw [show (1e-12 : ℝ) = 1e-6 ^ 2 by norm_num, Real.sqrt_sq (by norm_num)]
      _ ≤ Real.sqrt (g * avgProb den) := Real.sqrt_le_sqrt h1
  have heE : Real.sqrt (g * avgProb den) ≤ E := hub m den hden hlen
  have hEe : E = Real.sqrt (g * avgProb den) := by
    rcases hprov with h | ⟨m2, _, den2, hden2, hlen2, hE2⟩
    · exfalso
      rw [h] at heE
      linarith
    · exact le_antisymm (hE2 ▸ hmax m2 den2 hden2 hlen2) heE
  have hene : Real.sqrt (g * avgProb den) ≠ 0 := by
    intro h0
    rw [h0] at hestar
    linarith
  unfold effFactor
  rw [hE, hEe, effScore_fin g hg0 den, jDiv_fin_fin _ _ hene, div_self hene,
    jMul_fin_fin, jAdd_fin_fin]
  norm_num

/-- C6 (amended): every efficiency factor over a finite nonnegative segment
game count lies in `[0.6, 1.0]`; when the segment game count is at least 1,
the metric whose sample-efficiency score `sqrt(G * p_avg)` is maximal among
the metrics present with six denominators receives factor exactly 1.0.  (At
`G = 0` every score is 0, the `1e-9` floor in the running maximum wins, and
even the maximal metric receives factor 0.6 instead of 1.0.) -/
theorem claim_C6_efficiency_factor :
    (∀ (odds : MachineOdds) (g : ℝ), 0 ≤ g → ∀ m den, odds m = some den → den.length = 6 →
      ∃ fR, effFactor odds (JNum.fin g) den = JNum.fin fR ∧ 0.6 ≤ fR ∧ fR ≤ 1)
    ∧ (∀ (odds : MachineOdds) (g : ℝ), 1 ≤ g → ∀ m den, odds m = some den → den.length = 6 →
        (∀ m2 den2, odds m2 = some den2 → den2.length = 6 →
          Real.sqrt (g * avgProb den2) ≤ Real.sqrt (g * avgProb den)) →
        effFactor odds (JNum.fin g) den = JNum.fin 1) :=
  ⟨fun odds g hg m den hden hlen => effFactor_fin_bounds odds g hg m den hden hlen,
   fun odds g hg m den hden hlen hmax => effFactor_argmax_one odds g hg m den hden hlen hmax⟩

lemma oddsG6_cases (m2 : MetricId) (den2 : List ℝ) (h : oddsG6 m2 = some den2) :
    den2 = [6, 6, 6, 6, 6, 6] := by
  by_cases hm : m2 = MetricId.grape
  · rw [hm] at h
    rw [show oddsG6 MetricId.grape = some [(6:ℝ), 6, 6, 6, 6, 6] from rfl] at h
    exact (Option.some.injEq _ _ ▸ h).symm
  · simp [oddsG6, hm] at h

/-- C6 counterexample: on the grape-only fixture table with segment game
count 0, the sole (hence maximal-score) metric receives factor 0.6, not
1.0, because every sample-efficiency score is 0 and the `1e-9` floor wins. -/
theorem claim_C6_counterexample :
    (oddsG6 MetricId.grape = some [6, 6, 6, 6, 6, 6])
    ∧ (∀ m2 den2, oddsG6 m2 = some den2 → den2.length = 6 →
        Real.sqrt (0 * avgProb den2) ≤ Real.sqrt (0 * avgProb [6, 6, 6, 6, 6, 6]))
    ∧ effFactor oddsG6 (JNum.fin 0) [6, 6, 6, 6, 6, 6] = JNum.fin 0.6
    ∧ (0.6 : ℝ) ≠ 1 := by
  refine ⟨rfl, ?_, ?_, by norm_num⟩
  · intro m2 den2 h _
    rw [oddsG6_cases m2 den2 h]
  · obtain ⟨E, hE, hE9, hub, hprov⟩ := effMax_fin oddsG6 0 le_rfl
    have hze : ∀ den2 : List ℝ, Real.sqrt (0 * avgProb den2) = 0 := by
      intro den2
      rw [zero_mul, Real.sqrt_zero]
    have hEe : E = 1e-9 := by
      rcases hprov with h | ⟨m2, _, den2, _, _, hE2⟩
      · exact h
      · exfalso
        rw [hze den2] at hE2
        rw [hE2] at hE9
        linarith
    unfold effFactor
    rw [hE, hEe, effScore_fin 0 le_rfl _, hze, jDiv_fin_fin _ _ (by norm_num), jMul_fin_fin,
      jAdd_fin_fin]
    norm_num

/-- C6 witness: the bounds conjunct at `G = 0` and the argmax conjunct at
`G = 1`, on the grape-only fixture table. -/
theorem claim_C6_witness :
    (∃ fR, effFactor oddsG6 (JNum.fin 0) [6, 6, 6, 6, 6, 6] = JNum.fin fR
      ∧ 0.6 ≤ fR ∧ fR ≤ 1)
    ∧ effFactor oddsG6 (JNum.fin 1) [6, 6, 6, 6, 6, 6] = JNum.fin 1 := by
  constructor
  · exact claim_C6_efficiency_factor.1 oddsG6 0 le_rfl MetricId.grape _ rfl rfl
  · refine claim_C6_efficiency_factor.2 oddsG6 1 le_rfl MetricId.grape _ rfl rfl ?_
    intro m2 den2 h _
    rw [oddsG6_cases m2 den2 h]

/-! Concrete weight computations for the diagnostic-map claim. -/

lemma effFactor_G0 (odds : MachineOdds) (den : List ℝ) :
    effFactor odds (JNum.fin 0) den = JNum.fin 0.6 := by
  obtain ⟨E, hE, hE9, hub, hprov⟩ := effMax_fin odds 0 le_rfl
  have hze : ∀ den2 : List ℝ, Real.sqrt (0 * avgProb den2) = 0 := by
    intro den2
    rw [zero_mul, Real.sqrt_zero]
  have hEe : E = 1e-9 := by
    rcases hprov with h | ⟨m2, _, den2, _, _, hE2⟩
    · exact h
    · exfalso
      rw [hze den2] at hE2
      rw [hE2] at hE9
      linarith
  unfold effFactor
  rw [hE, hEe, effScore_fin 0 le_rfl _, hze, jDiv_fin_fin _ _ (by norm_num), jMul_fin_fin,
    jAdd_fin_fin]
  norm_num

lemma coerceCount_zero : coerceCount (JNum.fin 0) = JNum.fin 0 := by
  rw [coerceCount_fin, truncR_zero, max_self]

lemma buildWeights_C9_singleReg :
    buildWeights "Y" oddsC9 (coerceCount statsZero.segGames) MetricId.singleReg
      = some (Real.log 2 * 0.6) := by
  have hcoerce : coerceCount statsZero.segGames = JNum.fin 0 := coerceCount_zero
  rw [hcoerce,
    buildWeights_some "Y" oddsC9 (JNum.fin 0)
      (show oddsC9 MetricId.singleReg = some [2, 2, 2, 2, 2, 1] from rfl) rfl]
  congr 1
  unfold finWeight dampWeight rawWeight
  rw [if_neg (by simp)]
  have hjm : jMax (JNum.fin 0) (JNum.fin 0) = JNum.fin 0 := by
    rw [jMax_fin_fin, max_self]
  rw [hjm, effFactor_G0]
  have hd : deltaScore [(2 : ℝ), 2, 2, 2, 2, 1] = Real.log 2 := by
    show (if ¬ (0 < (2 : ℝ)) ∨ ¬ (0 < (1 : ℝ)) then 0
      else if (2 : ℝ) / 1 ≤ 0 then 0 else Real.log (2 / 1)) = Real.log 2
    rw [if_neg (by norm_num), if_neg (by norm_num)]
    norm_num
  rw [hd, jMul_fin_fin, jsFinOr0_fin]
  unfold weightMin
  rw [if_neg (by simp)]
  have hl2a : (0.6931471803 : ℝ) < Real.log 2 := Real.log_two_gt_d9
  have hl2b : Real.log 2 < 0.6931471808 := Real.log_two_lt_d9
  rw [min_eq_right (by nlinarith), max_eq_right (by nlinarith)]

lemma buildWeights_C9_totalBig :
    buildWeights "Y" oddsC9 (coerceCount statsZero.segGames) MetricId.totalBig
      = some 0.05 := by
  have hcoerce : coerceCount statsZero.segGames = JNum.fin 0 := coerceCount_zero
  rw [hcoerce,
    buildWeights_some "Y" oddsC9 (JNum.fin 0)
      (show oddsC9 MetricId.totalBig = some [2, 2, 2, 2, 2, 2] from rfl) rfl]
  congr 1
  unfold finWeight dampWeight rawWeight
  rw [if_pos (Or.inl rfl)]
  have hjm : jMax (JNum.fin 0) (JNum.fin 0) = JNum.fin 0 := by
    rw [jMax_fin_fin, max_self]
  rw [hjm, effFactor_G0]
  have hd : deltaScore [(2 : ℝ), 2, 2, 2, 2, 2] = 0 := by
    show (if ¬ (0 < (2 : ℝ)) ∨ ¬ (0 < (2 : ℝ)) then 0
      else if (2 : ℝ) / 2 ≤ 0 then 0 else Real.log (2 / 2)) = 0
    rw [if_neg (by norm_num), if_neg (by norm_num)]
    rw [show (2 : ℝ) / 2 = 1 by norm_num, Real.log_one]
  rw [hd, jMul_fin_fin, jMul_fin_fin, jsFinOr0_fin]
  unfold weightMin
  rw [if_neg (by simp)]
  rw [min_eq_right (by norm_num), max_eq_left (by norm_num)]

lemma round3_logtwo : round3 (Real.log 2 * 0.6) = 0.416 := by
  unfold round3
  have hl2a : (0.6931471803 : ℝ) < Real.log 2 := Real.log_two_gt_d9
  have hl2b : Real.log 2 < 0.6931471808 := Real.log_two_lt_d9
  have h416 : round (Real.log 2 * 0.6 * 1000) = (416 : ℤ) := by
    rw [round_eq]
    apply Int.floor_eq_iff.mpr
    constructor
    · push_cast
      nlinarith
    · push_cast
      nlinarith
  rw [h416]
  norm_num

lemma round3_d05 : round3 (0.05 : ℝ) = 0.05 := by
  unfold round3
  rw [show (0.05 : ℝ) * 1000 = ((50 : ℤ) : ℝ) by norm_num, round_intCast]
  norm_num

/-- C9 (amended): the `weightsUsed` map records, for every metric present in
the catalog entry (with six denominators), the aggregation weight rounded to
three decimal places — within `1/2000` of the weight that actually
multiplies that metric's log-likelihood — and nothing for absent metrics.
An entry is present even for a cumulative metric whose term is skipped
because no cumulative game count was supplied. -/
theorem claim_C9_weights_used
    (cat : String → Option MachineDef) (machine : String) (dm : MachineDef)
    (stats : AdjustedStats) (hcat : cat machine = some dm)
    (hlen : ∀ m den, dm.odds m = some den → den.length = 6) :
    ∃ r, infer cat machine stats = Except.ok r
      ∧ (∀ m den, dm.odds m = some den →
          ∃ w, buildWeights machine dm.odds (coerceCount stats.segGames) m = some w
            ∧ r.weightsUsed m = some (round3 w)
            ∧ |round3 w - w| ≤ 1 / 2000)
      ∧ (∀ m, dm.odds m = none → r.weightsUsed m = none) := by
  simp only [infer, hcat]
  refine ⟨_, rfl, ?_, ?_⟩
  · intro m den hden
    refine ⟨finWeight dm.odds (jMax (JNum.fin 0) (coerceCount stats.segGames)) m den,
      buildWeights_some machine dm.odds _ hden (hlen m den hden), ?_, ?_⟩
    · show (buildWeights machine dm.odds (coerceCount stats.segGames) m).map round3
        = some (round3 _)
      rw [buildWeights_some machine dm.odds _ hden (hlen m den hden)]
      rfl
    · set w := finWeight dm.odds (jMax (JNum.fin 0) (coerceCount stats.segGames)) m den with hw
      have habs : |w * 1000 - ((round (w * 1000) : ℤ) : ℝ)| ≤ 1 / 2 := abs_sub_round _
      have heq : round3 w - w = (((round (w * 1000) : ℤ) : ℝ) - w * 1000) / 1000 := by
        unfold round3
        ring
      rw [heq, abs_div, abs_of_pos (show (0 : ℝ) < 1000 by norm_num),
        div_le_iff (show (0 : ℝ) < 1000 by norm_num), abs_sub_comm]
      calc |w * 1000 - ((round (w * 1000) : ℤ) : ℝ)| ≤ 1 / 2 := habs
        _ = 1 / 2000 * 1000 := by norm_num
  · intro m hm
    show (buildWeights machine dm.odds (coerceCount stats.segGames) m).map round3 = none
    rw [buildWeights_none machine dm.odds _ hm]
    rfl

/-- C9 counterexample: on a fixture device, the recorded value for the
single-REG metric is 0.416 while the weight actually used in aggregation is
`log 2 * 0.6 ≈ 0.41589`, so the recorded value does not equal the weight
used; moreover the cumulative-BIG metric has a `weightsUsed` entry although
its log-likelihood term is not included in the aggregation (no cumulative
game count was supplied). -/
theorem claim_C9_counterexample :
    (infer catC9 "Y" statsZero).map (fun r => r.weightsUsed MetricId.singleReg)
        = Except.ok (some 0.416)
    ∧ buildWeights "Y" oddsC9 (coerceCount statsZero.segGames) MetricId.singleReg
        = some (Real.log 2 * 0.6)
    ∧ (0.416 : ℝ) ≠ Real.log 2 * 0.6
    ∧ (infer catC9 "Y" statsZero).map (fun r => r.weightsUsed MetricId.totalBig)
        = Except.ok (some 0.05)
    ∧ usedInAggregation oddsC9 statsZero MetricId.totalBig = false := by
  have hcat : catC9 "Y" = some mdefC9 := rfl
  have hodds : mdefC9.odds = oddsC9 := rfl
  refine ⟨?_, buildWeights_C9_singleReg, ?_, ?_, ?_⟩
  · simp only [infer, hcat, Except.map]
    rw [hodds, buildWeights_C9_singleReg]
    show Except.ok (some (round3 (Real.log 2 * 0.6))) = Except.ok (some 0.416)
    rw [round3_logtwo]
  · have hl2b : Real.log 2 < 0.6931471808 := Real.log_two_lt_d9
    intro h
    nlinarith
  · simp only [infer, hcat, Except.map]
    rw [hodds, buildWeights_C9_totalBig]
    show Except.ok (some (round3 (0.05 : ℝ))) = Except.ok (some 0.05)
    rw [round3_d05]
  · show ((oddsC9 MetricId.totalBig).isSome
        && jGtB (coerceCount (jOfOpt0 statsZero.totalGames)) (JNum.fin 0)
        && jGeB (coerceCount (jOfOpt0 statsZero.totalBig)) (JNum.fin 0)) = false
    rw [show statsZero.totalGames = none from rfl, jOfOpt0_none, coerceCount_zero,
      jGtB_fin_fin, decide_eq_false (lt_irrefl (0 : ℝ))]
    simp

/-- C9 witness: the diagnostic-map theorem applied to the fixture catalog. -/
theorem claim_C9_witness :
    (catC9 "Y" = some mdefC9)
    ∧ (∃ r, infer catC9 "Y" statsZero = Except.ok r
        ∧ (∀ m den, mdefC9.odds m = some den →
            ∃ w, buildWeights "Y" mdefC9.odds (coerceCount statsZero.segGames) m = some w
              ∧ r.weightsUsed m = some (round3 w)
              ∧ |round3 w - w| ≤ 1 / 2000)
        ∧ (∀ m, mdefC9.odds m = none → r.weightsUsed m = none)) := by
  have hlen : ∀ m den, mdefC9.odds m = some den → den.length = 6 := by
    intro m den h
    cases m <;> first
      | (cases h; rfl)
      | simp [mdefC9, oddsC9] at h
  exact ⟨rfl, claim_C9_weights_used catC9 "Y" mdefC9 statsZero rfl hlen⟩

/-! NaN-propagation lemmas and the coercion behavior of `infer`. -/

@[simp] lemma jMul_nan (x : JNum) : jMul JNum.nan x = JNum.nan := by cases x <;> rfl

@[simp] lemma jAdd_nan (x : JNum) : jAdd JNum.nan x = JNum.nan := by cases x <;> rfl

@[simp] lemma jAdd_nan_right (x : JNum) : jAdd x JNum.nan = JNum.nan := by cases x <;> rfl

@[simp] lemma jSub_nan_right (x : JNum) : jSub x JNum.nan = JNum.nan := by cases x <;> rfl

@[simp] lemma jIsFinite_nan : jIsFinite JNum.nan = false := rfl

lemma coerceCount_hundred : coerceCount (JNum.fin 100) = JNum.fin 100 := by
  rw [show (100 : ℝ) = ((100 : ℕ) : ℝ) by norm_num]
  exact coerceCount_natCast 100

lemma grapeFromDiff_nan_big (g rb d : ℝ) (hg : 0 < g) :
    grapeFromDiff (JNum.fin g) JNum.nan (JNum.fin rb) (some (JNum.fin d)) = (none, none) := by
  have hguard : jGtB (JNum.fin g) (JNum.fin 0) = true := by
    rw [jGtB_fin_fin]
    exact decide_eq_true hg
  simp only [grapeFromDiff, hguard, not_true, if_false]
  rw [jMul_nan, jAdd_nan, jAdd_nan, jSub_nan_right]
  rw [if_pos (Or.inl (by simp))]
  rw [if_neg (by simp)]

lemma coerceCount_negOpt (o : Option JNum) :
    coerceCount (jOfOpt0 (o.map negCoerced)) = coerceCount (jOfOpt0 o) := by
  cases o with
  | none => rfl
  | some x =>
      rw [Option.map_some']
      exact coerceCount_negCoerced x

lemma segTerm_k_eq (odds : MachineOdds) (W : MetricId → Option ℝ) (m : MetricId)
    (n : JNum) (k k' : JNum) (i : ℕ) (acc : JNum)
    (hk : ∀ p, binomLogLik n k p = binomLogLik n k' p) :
    segTerm odds W m n k i acc = segTerm odds W m n k' i acc := by
  unfold segTerm
  cases odds m with
  | none => rfl
  | some den =>
      dsimp only
      rw [hk]

/-- C2 counterexample: a NaN tier-A count is not treated as 0 by the whole
call — with the count NaN the reverse-estimator coin field is omitted, while
with the count 0 it is produced. -/
theorem claim_C2_counterexample :
    (infer catG6 "X" statsC2).map (fun r => r.grapeCoinsFromDiff) = Except.ok none
    ∧ (infer catG6 "X" { statsC2 with bigSingle := JNum.fin 0 }).map
        (fun r => r.grapeCoinsFromDiff) ≠ Except.ok none := by
  have hcat : catG6 "X" = some mdefG6 := rfl
  constructor
  · simp only [infer, hcat, Except.map]
    rw [show statsC2.segGames = JNum.fin 100 from rfl,
      show statsC2.bigSingle = JNum.nan from rfl,
      show statsC2.bigCherry = JNum.fin 0 from rfl,
      show statsC2.regSingle = JNum.fin 0 from rfl,
      show statsC2.regCherry = JNum.fin 0 from rfl,
      show statsC2.diff = some (JNum.fin 500) from rfl,
      coerceCount_hundred, coerceCount_nan, coerceCount_zero, jAdd_nan, jAdd_fin_fin]
    rw [grapeFromDiff_nan_big (100 : ℝ) (0 + 0) 500 (by norm_num)]
  · simp only [infer, hcat, Except.map]
    rw [show statsC2.segGames = JNum.fin 100 from rfl,
      show statsC2.bigCherry = JNum.fin 0 from rfl,
      show statsC2.regSingle = JNum.fin 0 from rfl,
      show statsC2.regCherry = JNum.fin 0 from rfl,
      show statsC2.diff = some (JNum.fin 500) from rfl,
      coerceCount_hundred, coerceCount_zero, jAdd_fin_fin]
    rw [grapeFromDiff_fin_pos 100 (0 + 0) (0 + 0) 500
      (500 + 3 * 100 - ((0 + 0) * 239.25 + (0 + 0) * 95.25
        + 100 * (3 * (1 / 7.3) + 2 * (1 / 35))))
      (by norm_num) (by ring) (by norm_num)]
    intro h
    have h2 := Except.ok.inj h
    cases h2

lemma binomLogLik_coerce_nf_opt (n : JNum) (o : Option JNum) (p : ℝ) :
    binomLogLik n (coerceCount (jOfOpt0 (o.map nfZeroed))) p
      = binomLogLik n (coerceCount (jOfOpt0 o)) p := by
  cases o with
  | none => rfl
  | some x =>
      rw [Option.map_some', jOfOpt0_some, jOfOpt0_some]
      exact binomLogLik_coerce_nf n x p

/-- C2 (amended): `infer` fails exactly on an unknown device identifier and
returns a full result on every other input, including bundles with negative
or non-finite numeric fields; finite negative counts are coerced to 0 with
the whole result unchanged; non-finite values in the seven segment metric
counts act as 0 in the posterior computation (posterior, expected setting,
`p4plus`, `p56` unchanged) though not in the reverse estimator; and a
missing cumulative total behaves exactly like a supplied 0. -/
theorem claim_C2_error_handling :
    (∀ (cat : String → Option MachineDef) machine stats, cat machine = none →
      infer cat machine stats = Except.error ("Unknown machine id: " ++ machine))
    ∧ (∀ (cat : String → Option MachineDef) machine dm stats, cat machine = some dm →
        ∃ r, infer cat machine stats = Except.ok r)
    ∧ (∀ (cat : String → Option MachineDef) machine stats,
        infer cat machine (negSanitized stats) = infer cat machine stats)
    ∧ (∀ (cat : String → Option MachineDef) machine dm stats, cat machine = some dm →
        ∃ r1 r2, infer cat machine stats = Except.ok r1
          ∧ infer cat machine (nfSanitizedCounts stats) = Except.ok r2
          ∧ r2.posterior = r1.posterior ∧ r2.expectedSetting = r1.expectedSetting
          ∧ r2.p4plus = r1.p4plus ∧ r2.p56 = r1.p56)
    ∧ (∀ (cat : String → Option MachineDef) (machine : String) (stats : AdjustedStats),
        infer cat machine ({ stats with totalGames := some (JNum.fin 0) } : AdjustedStats)
          = infer cat machine ({ stats with totalGames := none } : AdjustedStats)
        ∧ infer cat machine ({ stats with totalBig := some (JNum.fin 0) } : AdjustedStats)
          = infer cat machine ({ stats with totalBig := none } : AdjustedStats)
        ∧ infer cat machine ({ stats with totalReg := some (JNum.fin 0) } : AdjustedStats)
          = infer cat machine ({ stats with totalReg := none } : AdjustedStats)) := by
  refine ⟨?_, ?_, ?_, ?_, ?_⟩
  · intro cat machine stats h
    simp [infer, h]
  · intro cat machine dm stats h
    simp only [infer, h]
    exact ⟨_, rfl⟩
  · intro cat machine stats
    cases h : cat machine with
    | none => simp [infer, h]
    | some dm =>
        simp only [infer, h, negSanitized]
        simp only [coerceCount_negCoerced, coerceCount_negOpt]
  · intro cat machine dm stats hcat
    simp only [infer, hcat, nfSanitizedCounts]
    have haggeq :
        (fun i : Fin 6 =>
          aggScore dm.odds (buildWeights machine dm.odds (coerceCount stats.segGames))
            (coerceCount stats.segGames) (coerceCount (jOfOpt0 stats.totalGames))
            (coerceCount (nfZeroed stats.bigSingle)) (coerceCount (nfZeroed stats.bigCherry))
            (coerceCount (nfZeroed stats.regSingle)) (coerceCount (nfZeroed stats.regCherry))
            (coerceCount (nfZeroed stats.grapes)) (coerceCount (nfZeroed stats.nonOverlapCherries))
            (coerceCount (jOfOpt0 (stats.midCherryBig.map nfZeroed)))
            (coerceCount (jOfOpt0 stats.totalBig)) (coerceCount (jOfOpt0 stats.totalReg)) (i : ℕ))
          = (fun i : Fin 6 =>
            aggScore dm.odds (buildWeights machine dm.odds (coerceCount stats.segGames))
              (coerceCount stats.segGames) (coerceCount (jOfOpt0 stats.totalGames))
              (coerceCount stats.bigSingle) (coerceCount stats.bigCherry)
              (coerceCount stats.regSingle) (coerceCount stats.regCherry)
              (coerceCount stats.grapes) (coerceCount stats.nonOverlapCherries)
              (coerceCount (jOfOpt0 stats.midCherryBig)) (coerceCount (jOfOpt0 stats.totalBig))
              (coerceCount (jOfOpt0 stats.totalReg)) (i : ℕ)) := by
      funext i
      unfold aggScore
      dsimp only
      rw [segTerm_k_eq dm.odds _ MetricId.singleReg _ _ (coerceCount stats.regSingle) _ _
          (fun p => binomLogLik_coerce_nf _ stats.regSingle p),
        segTerm_k_eq dm.odds _ MetricId.cherryReg _ _ (coerceCount stats.regCherry) _ _
          (fun p => binomLogLik_coerce_nf _ stats.regCherry p),
        segTerm_k_eq dm.odds _ MetricId.singleBig _ _ (coerceCount stats.bigSingle) _ _
          (fun p => binomLogLik_coerce_nf _ stats.bigSingle p),
        segTerm_k_eq dm.odds _ MetricId.cherryBig _ _ (coerceCount stats.bigCherry) _ _
          (fun p => binomLogLik_coerce_nf _ stats.bigCherry p),
        segTerm_k_eq dm.odds _ MetricId.grape _ _ (coerceCount stats.grapes) _ _
          (fun p => binomLogLik_coerce_nf _ stats.grapes p),
        segTerm_k_eq dm.odds _ MetricId.nonOverlapCherry _ _ (coerceCount stats.nonOverlapCherries) _ _
          (fun p => binomLogLik_coerce_nf _ stats.nonOverlapCherries p),
        segTerm_k_eq dm.odds _ MetricId.midCherryBig _ _ (coerceCount (jOfOpt0 stats.midCherryBig)) _ _
          (fun p => binomLogLik_coerce_nf_opt _ stats.midCherryBig p)]
    refine ⟨_, _, rfl, rfl, ?_, ?_, ?_, ?_⟩
    · rw [haggeq]
    · show expSetting (softmaxLogWeights _) = expSetting (softmaxLogWeights _)
      rw [haggeq]
    · show jAdd (jAdd (jAt (softmaxLogWeights _) 3) (jAt (softmaxLogWeights _) 4))
        (jAt (softmaxLogWeights _) 5) = _
      rw [haggeq]
    · show jAdd (jAt (softmaxLogWeights _) 4) (jAt (softmaxLogWeights _) 5) = _
      rw [haggeq]
  · intro cat machine stats
    cases h : cat machine with
    | none =>
        exact ⟨by simp [infer, h], by simp [infer, h], by simp [infer, h]⟩
    | some dm =>
        exact ⟨by simp only [infer, h, jOfOpt0_some, jOfOpt0_none],
          by simp only [infer, h, jOfOpt0_some, jOfOpt0_none],
          by simp only [infer, h, jOfOpt0_some, jOfOpt0_none]⟩

/-- C2 witness: the error-handling theorem applied to an empty catalog (the
lookup fails) and to the fixture catalog with the NaN-count bundle (a full
result is returned). -/
theorem claim_C2_witness :
    infer (fun _ => none) "Q" statsZero = Except.error ("Unknown machine id: " ++ "Q")
    ∧ (∃ r, infer catG6 "X" statsC2 = Except.ok r) :=
  ⟨claim_C2_error_handling.1 (fun _ => none) "Q" statsZero rfl,
   claim_C2_error_handling.2.1 catG6 "X" mdefG6 statsC2 rfl⟩

/-! Machinery for the monotonicity claim: a real-valued mirror of the
aggregated scores, and strict monotonicity of the high-settings softmax
mass under score shifts that favor the high settings. -/

lemma segTerm_mirror (odds : MachineOdds) (W : MetricId → Option ℝ) (m : MetricId)
    (n k : JNum) (i : ℕ) (x : ℝ)
    (hWm : ∀ den, odds m = some den → (W m).isSome) :
    segTerm odds W m n k i (JNum.fin x) = JNum.fin (x + segTermValR odds W m n k i) := by
  unfold segTerm segTermValR
  cases h : odds m with
  | none =>
      dsimp only
      rw [add_zero]
  | some den =>
      dsimp only
      obtain ⟨w, hw⟩ := Option.isSome_iff_exists.mp (hWm den h)
      simp [hw]

lemma totalTerm_mirror (odds : MachineOdds) (W : MetricId → Option ℝ) (m : MetricId)
    (n k : JNum) (i : ℕ) (x : ℝ)
    (hWm : ∀ den, odds m = some den → (W m).isSome) :
    totalTerm odds W m n k i (JNum.fin x) = JNum.fin (x + totalTermValR odds W m n k i) := by
  unfold totalTerm totalTermValR
  cases h : odds m with
  | none =>
      dsimp only
      rw [add_zero]
  | some den =>
      dsimp only
      obtain ⟨w, hw⟩ := Option.isSome_iff_exists.mp (hWm den h)
      by_cases hk : jGeB k (JNum.fin 0) = true
      · rw [if_pos hk, if_pos hk]
        simp [hw]
      · rw [if_neg hk, if_neg hk, add_zero]

lemma aggScore_mirror (odds : MachineOdds) (W : MetricId → Option ℝ)
    (segG totalG k1 k2 k3 k4 k5 k6 k7 k8 k9 : JNum) (i : ℕ)
    (hW : ∀ m den, odds m = some den → (W m).isSome) :
    aggScore odds W segG totalG k1 k2 k3 k4 k5 k6 k7 k8 k9 i
      = JNum.fin (aggScoreR odds W segG totalG k1 k2 k3 k4 k5 k6 k7 k8 k9 i) := by
  unfold aggScore aggScoreR
  dsimp only
  rw [segTerm_mirror odds W MetricId.singleReg segG k3 i 0 (fun den h => hW _ den h),
    segTerm_mirror odds W MetricId.cherryReg segG k4 i _ (fun den h => hW _ den h),
    segTerm_mirror odds W MetricId.singleBig segG k1 i _ (fun den h => hW _ den h),
    segTerm_mirror odds W MetricId.cherryBig segG k2 i _ (fun den h => hW _ den h),
    segTerm_mirror odds W MetricId.grape segG k5 i _ (fun den h => hW _ den h),
    segTerm_mirror odds W MetricId.nonOverlapCherry segG k6 i _ (fun den h => hW _ den h),
    segTerm_mirror odds W MetricId.midCherryBig segG k7 i _ (fun den h => hW _ den h)]
  by_cases hg : jGtB totalG (JNum.fin 0) = true
  · rw [if_pos hg, if_pos hg,
      totalTerm_mirror odds W MetricId.totalBig totalG k8 i _ (fun den h => hW _ den h),
      totalTerm_mirror odds W MetricId.totalReg totalG k9 i _ (fun den h => hW _ den h)]
    exact congrArg JNum.fin (by ring)
  · rw [if_neg hg, if_neg hg]
    exact congrArg JNum.fin (by ring)

lemma segTermValR_some (odds : MachineOdds) (W : MetricId → Option ℝ) (m : MetricId)
    (n k : JNum) (i : ℕ) (den : List ℝ) (h : odds m = some den) :
    segTermValR odds W m n k i
      = (W m).getD 0 * binomLogLik n k (safeProbFromDenom (den.get? i)) := by
  simp [segTermValR, h]

lemma totalTermValR_some (odds : MachineOdds) (W : MetricId → Option ℝ) (m : MetricId)
    (n k : JNum) (i : ℕ) (den : List ℝ) (h : odds m = some den)
    (hk : jGeB k (JNum.fin 0) = true) :
    totalTermValR odds W m n k i
      = (W m).getD 0 * binomLogLik n k (safeProbFromDenom (den.get? i)) := by
  simp [totalTermValR, h, hk]

lemma smEntry_eq (a0 a1 a2 a3 a4 a5 x : ℝ) :
    smEntry a0 a1 a2 a3 a4 a5 x = Real.exp x /
      (Real.exp a0 + Real.exp a1 + Real.exp a2 + Real.exp a3 + Real.exp a4 + Real.exp a5) := by
  have hsum : (0 : ℝ) < Real.exp a0 + Real.exp a1 + Real.exp a2 + Real.exp a3
      + Real.exp a4 + Real.exp a5 := by positivity
  have hS := sumExp6_pos a0 a1 a2 a3 a4 a5
  unfold smEntry
  rw [div_eq_div_iff (ne_of_gt hS) (ne_of_gt hsum), sumExp6_unfold]
  rw [Real.exp_sub, Real.exp_sub, Real.exp_sub, Real.exp_sub, Real.exp_sub, Real.exp_sub,
    Real.exp_sub]
  field_simp

lemma smEntry_pair_strict (a0 a1 a2 a3 a4 a5 c0 c1 c2 c3 c4 c5 : ℝ)
    (h04 : c0 < c4) (h14 : c1 < c4) (h24 : c2 < c4) (h34 : c3 < c4)
    (h05 : c0 < c5) (h15 : c1 < c5) (h25 : c2 < c5) (h35 : c3 < c5) :
    smEntry a0 a1 a2 a3 a4 a5 a4 + smEntry a0 a1 a2 a3 a4 a5 a5
      < smEntry (a0 + c0) (a1 + c1) (a2 + c2) (a3 + c3) (a4 + c4) (a5 + c5) (a4 + c4)
        + smEntry (a0 + c0) (a1 + c1) (a2 + c2) (a3 + c3) (a4 + c4) (a5 + c5) (a5 + c5) := by
  rw [smEntry_eq, smEntry_eq, smEntry_eq, smEntry_eq, div_add_div_same, div_add_div_same]
  have hA0 := Real.exp_pos a0
  have hA1 := Real.exp_pos a1
  have hA2 := Real.exp_pos a2
  have hA3 := Real.exp_pos a3
  have hA4 := Real.exp_pos a4
  have hA5 := Real.exp_pos a5
  have hT0 := Real.exp_pos c0
  have hT1 := Real.exp_pos c1
  have hT2 := Real.exp_pos c2
  have hT3 := Real.exp_pos c3
  have hT4 := Real.exp_pos c4
  have hT5 := Real.exp_pos c5
  have e04 : Real.exp c0 < Real.exp c4 := Real.exp_lt_exp.mpr h04
  have e14 : Real.exp c1 < Real.exp c4 := Real.exp_lt_exp.mpr h14
  have e24 : Real.exp c2 < Real.exp c4 := Real.exp_lt_exp.mpr h24
  have e34 : Real.exp c3 < Real.exp c4 := Real.exp_lt_exp.mpr h34
  have e05 : Real.exp c0 < Real.exp c5 := Real.exp_lt_exp.mpr h05
  have e15 : Real.exp c1 < Real.exp c5 := Real.exp_lt_exp.mpr h15
  have e25 : Real.exp c2 < Real.exp c5 := Real.exp_lt_exp.mpr h25
  have e35 : Real.exp c3 < Real.exp c5 := Real.exp_lt_exp.mpr h35
  rw [Real.exp_add, Real.exp_add, Real.exp_add, Real.exp_add, Real.exp_add, Real.exp_add]
  rw [div_lt_div_iff (by positivity) (by positivity)]
  have g1 : Real.exp a4 * Real.exp a0 * Real.exp c0 < Real.exp a4 * Real.exp a0 * Real.exp c4 :=
    mul_lt_mul_of_pos_left e04 (by positivity)
  have g2 : Real.exp a4 * Real.exp a1 * Real.exp c1 < Real.exp a4 * Real.exp a1 * Real.exp c4 :=
    mul_lt_mul_of_pos_left e14 (by positivity)
  have g3 : Real.exp a4 * Real.exp a2 * Real.exp c2 < Real.exp a4 * Real.exp a2 * Real.exp c4 :=
    mul_lt_mul_of_pos_left e24 (by positivity)
  have g4 : Real.exp a4 * Real.exp a3 * Real.exp c3 < Real.exp a4 * Real.exp a3 * Real.exp c4 :=
    mul_lt_mul_of_pos_left e34 (by positivity)
  have g5 : Real.exp a5 * Real.exp a0 * Real.exp c0 < Real.exp a5 * Real.exp a0 * Real.exp c5 :=
    mul_lt_mul_of_pos_left e05 (by positivity)
  have g6 : Real.exp a5 * Real.exp a1 * Real.exp c1 < Real.exp a5 * Real.exp a1 * Real.exp c5 :=
    mul_lt_mul_of_pos_left e15 (by positivity)
  have g7 : Real.exp a5 * Real.exp a2 * Real.exp c2 < Real.exp a5 * Real.exp a2 * Real.exp c5 :=
    mul_lt_mul_of_pos_left e25 (by positivity)
  have g8 : Real.exp a5 * Real.exp a3 * Real.exp c3 < Real.exp a5 * Real.exp a3 * Real.exp c5 :=
    mul_lt_mul_of_pos_left e35 (by positivity)
  nlinarith [g1, g2, g3, g4, g5, g6, g7, g8]

lemma binomLogLik_nat_diff (g k k2 : ℕ) (hk : k ≤ g) (hk2 : k2 ≤ g) (p : ℝ)
    (hp1 : 1e-12 ≤ p) (hp2 : p ≤ 1 - 1e-12) :
    binomLogLik (JNum.fin (g : ℝ)) (JNum.fin (k2 : ℝ)) p
        - binomLogLik (JNum.fin (g : ℝ)) (JNum.fin (k : ℝ)) p
      = ((k2 : ℝ) - (k : ℝ)) * (Real.log p - Real.log (1 - p)) := by
  rw [binomLogLik_nat g k2 hk2 p, binomLogLik_nat g k hk p, ppClamp_eq hp1 hp2]
  ring

lemma logit_lt (p q : ℝ) (hp : 0 < p) (hq : q < 1) (hpq : p < q) :
    Real.log p - Real.log (1 - p) < Real.log q - Real.log (1 - q) := by
  have h1 : Real.log p < Real.log q := Real.log_lt_log hp hpq
  have h2 : Real.log (1 - q) < Real.log (1 - p) := Real.log_lt_log (by linarith) (by linarith)
  linarith

lemma infer_p56_val (cat : String → Option MachineDef) (machine : String)
    (dm : MachineDef) (stats : AdjustedStats) (hcat : cat machine = some dm)
    (L : Fin 6 → ℝ)
    (hL : ∀ i : Fin 6,
      aggScore dm.odds (buildWeights machine dm.odds (coerceCount stats.segGames))
        (coerceCount stats.segGames) (coerceCount (jOfOpt0 stats.totalGames))
        (coerceCount stats.bigSingle) (coerceCount stats.bigCherry)
        (coerceCount stats.regSingle) (coerceCount stats.regCherry)
        (coerceCount stats.grapes) (coerceCount stats.nonOverlapCherries)
        (coerceCount (jOfOpt0 stats.midCherryBig)) (coerceCount (jOfOpt0 stats.totalBig))
        (coerceCount (jOfOpt0 stats.totalReg)) (i : ℕ) = JNum.fin (L i)) :
    ∃ r, infer cat machine stats = Except.ok r
      ∧ r.p56 = JNum.fin (smEntry (L 0) (L 1) (L 2) (L 3) (L 4) (L 5) (L 4)
          + smEntry (L 0) (L 1) (L 2) (L 3) (L 4) (L 5) (L 5)) := by
  simp only [infer, hcat]
  refine ⟨_, rfl, ?_⟩
  show jAdd (jAt (softmaxLogWeights _) 4) (jAt (softmaxLogWeights _) 5) = _
  simp only [hL, ofFn6]
  rw [softmax_fin6]
  simp only [jAt, List.get?, Option.getD, jAdd_fin_fin]


/-! Per-metric score-shift lemmas: changing one metric's observed count
shifts the mirrored aggregated score by the change in that metric's
weighted log-likelihood term. -/

lemma aggScoreR_shift_singleBig (odds : MachineOdds) (W : MetricId → Option ℝ)
    (segG totalG k1 k2 k3 k4 k5 k6 k7 k8 k9 kA kB : JNum) (i : ℕ) (den : List ℝ)
    (hden : odds MetricId.singleBig = some den) :
    aggScoreR odds W segG totalG kB k2 k3 k4 k5 k6 k7 k8 k9 i
      = aggScoreR odds W segG totalG kA k2 k3 k4 k5 k6 k7 k8 k9 i
        + ((W MetricId.singleBig).getD 0 * binomLogLik segG kB (safeProbFromDenom (den.get? i))
          - (W MetricId.singleBig).getD 0 * binomLogLik segG kA (safeProbFromDenom (den.get? i))) := by
  unfold aggScoreR
  rw [segTermValR_some odds W MetricId.singleBig segG kB i den hden,
    segTermValR_some odds W MetricId.singleBig segG kA i den hden]
  ring

lemma aggScoreR_shift_cherryBig (odds : MachineOdds) (W : MetricId → Option ℝ)
    (segG totalG k1 k2 k3 k4 k5 k6 k7 k8 k9 kA kB : JNum) (i : ℕ) (den : List ℝ)
    (hden : odds MetricId.cherryBig = some den) :
    aggScoreR odds W segG totalG k1 kB k3 k4 k5 k6 k7 k8 k9 i
      = aggScoreR odds W segG totalG k1 kA k3 k4 k5 k6 k7 k8 k9 i
        + ((W MetricId.cherryBig).getD 0 * binomLogLik segG kB (safeProbFromDenom (den.get? i))
          - (W MetricId.cherryBig).getD 0 * binomLogLik segG kA (safeProbFromDenom (den.get? i))) := by
  unfold aggScoreR
  rw [segTermValR_some odds W MetricId.cherryBig segG kB i den hden,
    segTermValR_some odds W MetricId.cherryBig segG kA i den hden]
  ring

lemma aggScoreR_shift_singleReg (odds : MachineOdds) (W : MetricId → Option ℝ)
    (segG totalG k1 k2 k3 k4 k5 k6 k7 k8 k9 kA kB : JNum) (i : ℕ) (den : List ℝ)
    (hden : odds MetricId.singleReg = some den) :
    aggScoreR odds W segG totalG k1 k2 kB k4 k5 k6 k7 k8 k9 i
      = aggScoreR odds W segG totalG k1 k2 kA k4 k5 k6 k7 k8 k9 i
        + ((W MetricId.singleReg).getD 0 * binomLogLik segG kB (safeProbFromDenom (den.get? i))
          - (W MetricId.singleReg).getD 0 * binomLogLik segG kA (safeProbFromDenom (den.get? i))) := by
  unfold aggScoreR
  rw [segTermValR_some odds W MetricId.singleReg segG kB i den hden,
    segTermValR_some odds W MetricId.singleReg segG kA i den hden]
  ring

lemma aggScoreR_shift_cherryReg (odds : MachineOdds) (W : MetricId → Option ℝ)
    (segG totalG k1 k2 k3 k4 k5 k6 k7 k8 k9 kA kB : JNum) (i : ℕ) (den : List ℝ)
    (hden : odds MetricId.cherryReg = some den) :
    aggScoreR odds W segG totalG k1 k2 k3 kB k5 k6 k7 k8 k9 i
      = aggScoreR odds W segG totalG k1 k2 k3 kA k5 k6 k7 k8 k9 i
        + ((W MetricId.cherryReg).getD 0 * binomLogLik segG kB (safeProbFromDenom (den.get? i))
          - (W MetricId.cherryReg).getD 0 * binomLogLik segG kA (safeProbFromDenom (den.get? i))) := by
  unfold aggScoreR
  rw [segTermValR_some odds W MetricId.cherryReg segG kB i den hden,
    segTermValR_some odds W MetricId.cherryReg segG kA i den hden]
  ring

lemma aggScoreR_shift_grape (odds : MachineOdds) (W : MetricId → Option ℝ)
    (segG totalG k1 k2 k3 k4 k5 k6 k7 k8 k9 kA kB : JNum) (i : ℕ) (den : List ℝ)
    (hden : odds MetricId.grape = some den) :
    aggScoreR odds W segG totalG k1 k2 k3 k4 kB k6 k7 k8 k9 i
      = aggScoreR odds W segG totalG k1 k2 k3 k4 kA k6 k7 k8 k9 i
        + ((W MetricId.grape).getD 0 * binomLogLik segG kB (safeProbFromDenom (den.get? i))
          - (W MetricId.grape).getD 0 * binomLogLik segG kA (safeProbFromDenom (den.get? i))) := by
  unfold aggScoreR
  rw [segTermValR_some odds W MetricId.grape segG kB i den hden,
    segTermValR_some odds W MetricId.grape segG kA i den hden]
  ring

lemma aggScoreR_shift_nonOverlapCherry (odds : MachineOdds) (W : MetricId → Option ℝ)
    (segG totalG k1 k2 k3 k4 k5 k6 k7 k8 k9 kA kB : JNum) (i : ℕ) (den : List ℝ)
    (hden : odds MetricId.nonOverlapCherry = some den) :
    aggScoreR odds W segG totalG k1 k2 k3 k4 k5 kB k7 k8 k9 i
      = aggScoreR odds W segG totalG k1 k2 k3 k4 k5 kA k7 k8 k9 i
        + ((W MetricId.nonOverlapCherry).getD 0 * binomLogLik segG kB (safeProbFromDenom (den.get? i))
          - (W MetricId.nonOverlapCherry).getD 0 * binomLogLik segG kA (safeProbFromDenom (den.get? i))) := by
  unfold aggScoreR
  rw [segTermValR_some odds W MetricId.nonOverlapCherry segG kB i den hden,
    segTermValR_some odds W MetricId.nonOverlapCherry segG kA i den hden]
  ring

lemma aggScoreR_shift_midCherryBig (odds : MachineOdds) (W : MetricId → Option ℝ)
    (segG totalG k1 k2 k3 k4 k5 k6 k7 k8 k9 kA kB : JNum) (i : ℕ) (den : List ℝ)
    (hden : odds MetricId.midCherryBig = some den) :
    aggScoreR odds W segG totalG k1 k2 k3 k4 k5 k6 kB k8 k9 i
      = aggScoreR odds W segG totalG k1 k2 k3 k4 k5 k6 kA k8 k9 i
        + ((W MetricId.midCherryBig).getD 0 * binomLogLik segG kB (safeProbFromDenom (den.get? i))
          - (W MetricId.midCherryBig).getD 0 * binomLogLik segG kA (safeProbFromDenom (den.get? i))) := by
  unfold aggScoreR
  rw [segTermValR_some odds W MetricId.midCherryBig segG kB i den hden,
    segTermValR_some odds W MetricId.midCherryBig segG kA i den hden]
  ring

lemma aggScoreR_shift_totalBig (odds : MachineOdds) (W : MetricId → Option ℝ)
    (segG totalG k1 k2 k3 k4 k5 k6 k7 k8 k9 kA kB : JNum) (i : ℕ) (den : List ℝ)
    (hden : odds MetricId.totalBig = some den)
    (hguard : jGtB totalG (JNum.fin 0) = true)
    (hgeA : jGeB kA (JNum.fin 0) = true) (hgeB : jGeB kB (JNum.fin 0) = true) :
    aggScoreR odds W segG totalG k1 k2 k3 k4 k5 k6 k7 kB k9 i
      = aggScoreR odds W segG totalG k1 k2 k3 k4 k5 k6 k7 kA k9 i
        + ((W MetricId.totalBig).getD 0 * binomLogLik totalG kB (safeProbFromDenom (den.get? i))
          - (W MetricId.totalBig).getD 0 * binomLogLik totalG kA (safeProbFromDenom (den.get? i))) := by
  unfold aggScoreR
  rw [if_pos hguard, if_pos hguard,
    totalTermValR_some odds W MetricId.totalBig totalG kB i den hden hgeB,
    totalTermValR_some odds W MetricId.totalBig totalG kA i den hden hgeA]
  ring

lemma aggScoreR_shift_totalReg (odds : MachineOdds) (W : MetricId → Option ℝ)
    (segG totalG k1 k2 k3 k4 k5 k6 k7 k8 k9 kA kB : JNum) (i : ℕ) (den : List ℝ)
    (hden : odds MetricId.totalReg = some den)
    (hguard : jGtB totalG (JNum.fin 0) = true)
    (hgeA : jGeB kA (JNum.fin 0) = true) (hgeB : jGeB kB (JNum.fin 0) = true) :
    aggScoreR odds W segG totalG k1 k2 k3 k4 k5 k6 k7 k8 kB i
      = aggScoreR odds W segG totalG k1 k2 k3 k4 k5 k6 k7 k8 kA i
        + ((W MetricId.totalReg).getD 0 * binomLogLik totalG kB (safeProbFromDenom (den.get? i))
          - (W MetricId.totalReg).getD 0 * binomLogLik totalG kA (safeProbFromDenom (den.get? i))) := by
  unfold aggScoreR
  rw [if_pos hguard, if_pos hguard,
    totalTermValR_some odds W MetricId.totalReg totalG kB i den hden hgeB,
    totalTermValR_some odds W MetricId.totalReg totalG kA i den hden hgeA]
  ring

lemma hW_of_hlen (machine : String) (odds : MachineOdds) (segG : JNum)
    (hlen : ∀ m den, odds m = some den → den.length = 6) :
    ∀ m den, odds m = some den → (buildWeights machine odds segG m).isSome := by
  intro m den h
  rw [buildWeights_some machine odds segG h (hlen m den h)]
  rfl

lemma weighted_diff_lt (w d B2i B1i B2j B1j Li Lj : ℝ) (hw : 0 < w) (hd : 0 < d)
    (e1 : B2i - B1i = d * Li) (e2 : B2j - B1j = d * Lj) (hl : Li < Lj) :
    w * B2i - w * B1i < w * B2j - w * B1j := by
  rw [show w * B2i - w * B1i = w * (B2i - B1i) from by ring, e1,
    show w * B2j - w * B1j = w * (B2j - B1j) from by ring, e2]
  exact mul_lt_mul_of_pos_left (mul_lt_mul_of_pos_left hl hd) hw

/-- C7 (amended): for a known device with well-formed tables and a metric
whose clamped per-setting success probabilities strictly increase from
setting 1 to setting 6 (in particular, strictly decreasing denominators in
the unclamped range), strictly increasing that metric's observed count —
within the relevant trial count (the segment game count for segment
metrics, a positive cumulative game count for the cumulative metrics) —
strictly increases `p56`, for every bundle; the weight is automatically
nonzero because built weights are floored at 0.05.  (Strictly decreasing
denominators alone do not suffice: if they are all so large that every
probability clamps to `1e-12` the posterior is unchanged.) -/
theorem claim_C7_monotonicity
    (cat : String → Option MachineDef) (machine : String) (dm : MachineDef)
    (stats : AdjustedStats) (m : MetricId) (den : List ℝ)
    (hcat : cat machine = some dm)
    (hlen : ∀ m2 den2, dm.odds m2 = some den2 → den2.length = 6)
    (hden : dm.odds m = some den)
    (hmono : ∀ i j : Fin 6, i < j →
      safeProbFromDenom (den.get? (i : ℕ)) < safeProbFromDenom (den.get? (j : ℕ))) :
    (∀ g k k2 : ℕ,
      (m = MetricId.singleBig ∨ m = MetricId.cherryBig ∨ m = MetricId.singleReg
        ∨ m = MetricId.cherryReg ∨ m = MetricId.grape ∨ m = MetricId.nonOverlapCherry
        ∨ m = MetricId.midCherryBig) →
      stats.segGames = JNum.fin ((g : ℕ) : ℝ) → k < k2 → k2 ≤ g →
      ∃ p q r1 r2,
        infer cat machine (setMetricCount stats m (JNum.fin ((k : ℕ) : ℝ))) = Except.ok r1
        ∧ infer cat machine (setMetricCount stats m (JNum.fin ((k2 : ℕ) : ℝ))) = Except.ok r2
        ∧ r1.p56 = JNum.fin p ∧ r2.p56 = JNum.fin q ∧ p < q)
    ∧ (∀ t k k2 : ℕ,
      (m = MetricId.totalBig ∨ m = MetricId.totalReg) →
      stats.totalGames = some (JNum.fin ((t : ℕ) : ℝ)) → 0 < t → k < k2 → k2 ≤ t →
      ∃ p q r1 r2,
        infer cat machine (setMetricCount stats m (JNum.fin ((k : ℕ) : ℝ))) = Except.ok r1
        ∧ infer cat machine (setMetricCount stats m (JNum.fin ((k2 : ℕ) : ℝ))) = Except.ok r2
        ∧ r1.p56 = JNum.fin p ∧ r2.p56 = JNum.fin q ∧ p < q) := by
  constructor
  · intro g k k2 hm hseg hkk hk2g
    rcases hm with rfl | rfl | rfl | rfl | rfl | rfl | rfl
    · obtain ⟨r1, hr1, hp1⟩ := infer_p56_val cat machine dm
        (setMetricCount stats MetricId.singleBig (JNum.fin ((k : ℕ) : ℝ))) hcat _
        (fun i => aggScore_mirror _ _ _ _ _ _ _ _ _ _ _ _ _ _
          (hW_of_hlen machine dm.odds _ hlen))
      obtain ⟨r2, hr2, hp2⟩ := infer_p56_val cat machine dm
        (setMetricCount stats MetricId.singleBig (JNum.fin ((k2 : ℕ) : ℝ))) hcat _
        (fun i => aggScore_mirror _ _ _ _ _ _ _ _ _ _ _ _ _ _
          (hW_of_hlen machine dm.odds _ hlen))
      refine ⟨_, _, r1, r2, hr1, hr2, hp1, hp2, ?_⟩
      simp only [setMetricCount, hseg, jOfOpt0_some, coerceCount_natCast]
      have hkg : k ≤ g := le_trans (le_of_lt hkk) hk2g
      have hd : ∀ i : ℕ,
          binomLogLik (JNum.fin ((g : ℕ) : ℝ)) (JNum.fin ((k2 : ℕ) : ℝ))
              (safeProbFromDenom (den.get? i))
            - binomLogLik (JNum.fin ((g : ℕ) : ℝ)) (JNum.fin ((k : ℕ) : ℝ))
              (safeProbFromDenom (den.get? i))
          = ((k2 : ℝ) - (k : ℝ)) * (Real.log (safeProbFromDenom (den.get? i))
              - Real.log (1 - safeProbFromDenom (den.get? i))) :=
        fun i => binomLogLik_nat_diff g k k2 hkg hk2g _ (safeProb_ge _) (safeProb_le _)
      have hshift := fun i : ℕ =>
        aggScoreR_shift_singleBig dm.odds
          (buildWeights machine dm.odds (JNum.fin ((g : ℕ) : ℝ)))
          (JNum.fin ((g : ℕ) : ℝ)) (coerceCount (jOfOpt0 stats.totalGames))
          (JNum.fin 0)
          (coerceCount stats.bigCherry)
          (coerceCount stats.regSingle)
          (coerceCount stats.regCherry)
          (coerceCount stats.grapes)
          (coerceCount stats.nonOverlapCherries)
          (coerceCount (jOfOpt0 stats.midCherryBig))
          (coerceCount (jOfOpt0 stats.totalBig))
          (coerceCount (jOfOpt0 stats.totalReg))
          (JNum.fin ((k : ℕ) : ℝ)) (JNum.fin ((k2 : ℕ) : ℝ)) i den hden
      simp only [hshift]
      have hw : (0 : ℝ) <
          (buildWeights machine dm.odds (JNum.fin ((g : ℕ) : ℝ)) MetricId.singleBig).getD 0 := by
        rw [buildWeights_some machine dm.odds _ hden (hlen _ den hden)]
        exact finWeight_pos _ _ _ _
      have hdel : (0 : ℝ) < (k2 : ℝ) - (k : ℝ) := by
        have h : (k : ℝ) < (k2 : ℝ) := Nat.cast_lt.mpr hkk
        linarith [h]
      have hcomp : ∀ i j : Fin 6, i < j →
          (buildWeights machine dm.odds (JNum.fin ((g : ℕ) : ℝ)) MetricId.singleBig).getD 0
              * binomLogLik (JNum.fin ((g : ℕ) : ℝ)) (JNum.fin ((k2 : ℕ) : ℝ))
                (safeProbFromDenom (den.get? (i : ℕ)))
            - (buildWeights machine dm.odds (JNum.fin ((g : ℕ) : ℝ)) MetricId.singleBig).getD 0
              * binomLogLik (JNum.fin ((g : ℕ) : ℝ)) (JNum.fin ((k : ℕ) : ℝ))
                (safeProbFromDenom (den.get? (i : ℕ)))
          < (buildWeights machine dm.odds (JNum.fin ((g : ℕ) : ℝ)) MetricId.singleBig).getD 0
              * binomLogLik (JNum.fin ((g : ℕ) : ℝ)) (JNum.fin ((k2 : ℕ) : ℝ))
                (safeProbFromDenom (den.get? (j : ℕ)))
            - (buildWeights machine dm.odds (JNum.fin ((g : ℕ) : ℝ)) MetricId.singleBig).getD 0
              * binomLogLik (JNum.fin ((g : ℕ) : ℝ)) (JNum.fin ((k : ℕ) : ℝ))
                (safeProbFromDenom (den.get? (j : ℕ))) :=
        fun i j hij => weighted_diff_lt _ _ _ _ _ _ _ _ hw hdel (hd (i : ℕ)) (hd (j : ℕ))
          (logit_lt _ _ (safeProb_pos _) (safeProb_lt_one _) (hmono i j hij))
      exact smEntry_pair_strict _ _ _ _ _ _ _ _ _ _ _ _
        (hcomp 0 4 (by decide)) (hcomp 1 4 (by decide)) (hcomp 2 4 (by decide))
        (hcomp 3 4 (by decide)) (hcomp 0 5 (by decide)) (hcomp 1 5 (by decide))
        (hcomp 2 5 (by decide)) (hcomp 3 5 (by decide))
    · obtain ⟨r1, hr1, hp1⟩ := infer_p56_val cat machine dm
        (setMetricCount stats MetricId.cherryBig (JNum.fin ((k : ℕ) : ℝ))) hcat _
        (fun i => aggScore_mirror _ _ _ _ _ _ _ _ _ _ _ _ _ _
          (hW_of_hlen machine dm.odds _ hlen))
      obtain ⟨r2, hr2, hp2⟩ := infer_p56_val cat machine dm
        (setMetricCount stats MetricId.cherryBig (JNum.fin ((k2 : ℕ) : ℝ))) hcat _
        (fun i => aggScore_mirror _ _ _ _ _ _ _ _ _ _ _ _ _ _
          (hW_of_hlen machine dm.odds _ hlen))
      refine ⟨_, _, r1, r2, hr1, hr2, hp1, hp2, ?_⟩
      simp only [setMetricCount, hseg, jOfOpt0_some, coerceCount_natCast]
      have hkg : k ≤ g := le_trans (le_of_lt hkk) hk2g
      have hd : ∀ i : ℕ,
          binomLogLik (JNum.fin ((g : ℕ) : ℝ)) (JNum.fin ((k2 : ℕ) : ℝ))
              (safeProbFromDenom (den.get? i))
            - binomLogLik (JNum.fin ((g : ℕ) : ℝ)) (JNum.fin ((k : ℕ) : ℝ))
              (safeProbFromDenom (den.get? i))
          = ((k2 : ℝ) - (k : ℝ)) * (Real.log (safeProbFromDenom (den.get? i))
              - Real.log (1 - safeProbFromDenom (den.get? i))) :=
        fun i => binomLogLik_nat_diff g k k2 hkg hk2g _ (safeProb_ge _) (safeProb_le _)
      have hshift := fun i : ℕ =>
        aggScoreR_shift_cherryBig dm.odds
          (buildWeights machine dm.odds (JNum.fin ((g : ℕ) : ℝ)))
          (JNum.fin ((g : ℕ) : ℝ)) (coerceCount (jOfOpt0 stats.totalGames))
          (coerceCount stats.bigSingle)
          (JNum.fin 0)
          (coerceCount stats.regSingle)
          (coerceCount stats.regCherry)
          (coerceCount stats.grapes)
          (coerceCount stats.nonOverlapCherries)
          (coerceCount (jOfOpt0 stats.midCherryBig))
          (coerceCount (jOfOpt0 stats.totalBig))
          (coerceCount (jOfOpt0 stats.totalReg))
          (JNum.fin ((k : ℕ) : ℝ)) (JNum.fin ((k2 : ℕ) : ℝ)) i den hden
      simp only [hshift]
      have hw : (0 : ℝ) <
          (buildWeights machine dm.odds (JNum.fin ((g : ℕ) : ℝ)) MetricId.cherryBig).getD 0 := by
        rw [buildWeights_some machine dm.odds _ hden (hlen _ den hden)]
        exact finWeight_pos _ _ _ _
      have hdel : (0 : ℝ) < (k2 : ℝ) - (k : ℝ) := by
        have h : (k : ℝ) < (k2 : ℝ) := Nat.cast_lt.mpr hkk
        linarith [h]
      have hcomp : ∀ i j : Fin 6, i < j →
          (buildWeights machine dm.odds (JNum.fin ((g : ℕ) : ℝ)) MetricId.cherryBig).getD 0
              * binomLogLik (JNum.fin ((g : ℕ) : ℝ)) (JNum.fin ((k2 : ℕ) : ℝ))
                (safeProbFromDenom (den.get? (i : ℕ)))
            - (buildWeights machine dm.odds (JNum.fin ((g : ℕ) : ℝ)) MetricId.cherryBig).getD 0
              * binomLogLik (JNum.fin ((g : ℕ) : ℝ)) (JNum.fin ((k : ℕ) : ℝ))
                (safeProbFromDenom (den.get? (i : ℕ)))
          < (buildWeights machine dm.odds (JNum.fin ((g : ℕ) : ℝ)) MetricId.cherryBig).getD 0
              * binomLogLik (JNum.fin ((g : ℕ) : ℝ)) (JNum.fin ((k2 : ℕ) : ℝ))
                (safeProbFromDenom (den.get? (j : ℕ)))
            - (buildWeights machine dm.odds (JNum.fin ((g : ℕ) : ℝ)) MetricId.cherryBig).getD 0
              * binomLogLik (JNum.fin ((g : ℕ) : ℝ)) (JNum.fin ((k : ℕ) : ℝ))
                (safeProbFromDenom (den.get? (j : ℕ))) :=
        fun i j hij => weighted_diff_lt _ _ _ _ _ _ _ _ hw hdel (hd (i : ℕ)) (hd (j : ℕ))
          (logit_lt _ _ (safeProb_pos _) (safeProb_lt_one _) (hmono i j hij))
      exact smEntry_pair_strict _ _ _ _ _ _ _ _ _ _ _ _
        (hcomp 0 4 (by decide)) (hcomp 1 4 (by decide)) (hcomp 2 4 (by decide))
        (hcomp 3 4 (by decide)) (hcomp 0 5 (by decide)) (hcomp 1 5 (by decide))
        (hcomp 2 5 (by decide)) (hcomp 3 5 (by decide))
    · obtain ⟨r1, hr1, hp1⟩ := infer_p56_val cat machine dm
        (setMetricCount stats MetricId.singleReg (JNum.fin ((k : ℕ) : ℝ))) hcat _
        (fun i => aggScore_mirror _ _ _ _ _ _ _ _ _ _ _ _ _ _
          (hW_of_hlen machine dm.odds _ hlen))
      obtain ⟨r2, hr2, hp2⟩ := infer_p56_val cat machine dm
        (setMetricCount stats MetricId.singleReg (JNum.fin ((k2 : ℕ) : ℝ))) hcat _
        (fun i => aggScore_mirror _ _ _ _ _ _ _ _ _ _ _ _ _ _
          (hW_of_hlen machine dm.odds _ hlen))
      refine ⟨_, _, r1, r2, hr1, hr2, hp1, hp2, ?_⟩
      simp only [setMetricCount, hseg, jOfOpt0_some, coerceCount_natCast]
      have hkg : k ≤ g := le_trans (le_of_lt hkk) hk2g
      have hd : ∀ i : ℕ,
          binomLogLik (JNum.fin ((g : ℕ) : ℝ)) (JNum.fin ((k2 : ℕ) : ℝ))
              (safeProbFromDenom (den.get? i))
            - binomLogLik (JNum.fin ((g : ℕ) : ℝ)) (JNum.fin ((k : ℕ) : ℝ))
              (safeProbFromDenom (den.get? i))
          = ((k2 : ℝ) - (k : ℝ)) * (Real.log (safeProbFromDenom (den.get? i))
              - Real.log (1 - safeProbFromDenom (den.get? i))) :=
        fun i => binomLogLik_nat_diff g k k2 hkg hk2g _ (safeProb_ge _) (safeProb_le _)
      have hshift := fun i : ℕ =>
        aggScoreR_shift_singleReg dm.odds
          (buildWeights machine dm.odds (JNum.fin ((g : ℕ) : ℝ)))
          (JNum.fin ((g : ℕ) : ℝ)) (coerceCount (jOfOpt0 stats.totalGames))
          (coerceCount stats.bigSingle)
          (coerceCount stats.bigCherry)
          (JNum.fin 0)
          (coerceCount stats.regCherry)
          (coerceCount stats.grapes)
          (coerceCount stats.nonOverlapCherries)
          (coerceCount (jOfOpt0 stats.midCherryBig))
          (coerceCount (jOfOpt0 stats.totalBig))
          (coerceCount (jOfOpt0 stats.totalReg))
          (JNum.fin ((k : ℕ) : ℝ)) (JNum.fin ((k2 : ℕ) : ℝ)) i den hden
      simp only [hshift]
      have hw : (0 : ℝ) <
          (buildWeights machine dm.odds (JNum.fin ((g : ℕ) : ℝ)) MetricId.singleReg).getD 0 := by
        rw [buildWeights_some machine dm.odds _ hden (hlen _ den hden)]
        exact finWeight_pos _ _ _ _
      have hdel : (0 : ℝ) < (k2 : ℝ) - (k : ℝ) := by
        have h : (k : ℝ) < (k2 : ℝ) := Nat.cast_lt.mpr hkk
        linarith [h]
      have hcomp : ∀ i j : Fin 6, i < j →
          (buildWeights machine dm.odds (JNum.fin ((g : ℕ) : ℝ)) MetricId.singleReg).getD 0
              * binomLogLik (JNum.fin ((g : ℕ) : ℝ)) (JNum.fin ((k2 : ℕ) : ℝ))
                (safeProbFromDenom (den.get? (i : ℕ)))
            - (buildWeights machine dm.odds (JNum.fin ((g : ℕ) : ℝ)) MetricId.singleReg).getD 0
              * binomLogLik (JNum.fin ((g : ℕ) : ℝ)) (JNum.fin ((k : ℕ) : ℝ))
                (safeProbFromDenom (den.get? (i : ℕ)))
          < (buildWeights machine dm.odds (JNum.fin ((g : ℕ) : ℝ)) MetricId.singleReg).getD 0
              * binomLogLik (JNum.fin ((g : ℕ) : ℝ)) (JNum.fin ((k2 : ℕ) : ℝ))
                (safeProbFromDenom (den.get? (j : ℕ)))
            - (buildWeights machine dm.odds (JNum.fin ((g : ℕ) : ℝ)) MetricId.singleReg).getD 0
              * binomLogLik (JNum.fin ((g : ℕ) : ℝ)) (JNum.fin ((k : ℕ) : ℝ))
                (safeProbFromDenom (den.get? (j : ℕ))) :=
        fun i j hij => weighted_diff_lt _ _ _ _ _ _ _ _ hw hdel (hd (i : ℕ)) (hd (j : ℕ))
          (logit_lt _ _ (safeProb_pos _) (safeProb_lt_one _) (hmono i j hij))
      exact smEntry_pair_strict _ _ _ _ _ _ _ _ _ _ _ _
        (hcomp 0 4 (by decide)) (hcomp 1 4 (by decide)) (hcomp 2 4 (by decide))
        (hcomp 3 4 (by decide)) (hcomp 0 5 (by decide)) (hcomp 1 5 (by decide))
        (hcomp 2 5 (by decide)) (hcomp 3 5 (by decide))
    · obtain ⟨r1, hr1, hp1⟩ := infer_p56_val cat machine dm
        (setMetricCount stats MetricId.cherryReg (JNum.fin ((k : ℕ) : ℝ))) hcat _
        (fun i => aggScore_mirror _ _ _ _ _ _ _ _ _ _ _ _ _ _
          (hW_of_hlen machine dm.odds _ hlen))
      obtain ⟨r2, hr2, hp2⟩ := infer_p56_val cat machine dm
        (setMetricCount stats MetricId.cherryReg (JNum.fin ((k2 : ℕ) : ℝ))) hcat _
        (fun i => aggScore_mirror _ _ _ _ _ _ _ _ _ _ _ _ _ _
          (hW_of_hlen machine dm.odds _ hlen))
      refine ⟨_, _, r1, r2, hr1, hr2, hp1, hp2, ?_⟩
      simp only [setMetricCount, hseg, jOfOpt0_some, coerceCount_natCast]
      have hkg : k ≤ g := le_trans (le_of_lt hkk) hk2g
      have hd : ∀ i : ℕ,
          binomLogLik (JNum.fin ((g : ℕ) : ℝ)) (JNum.fin ((k2 : ℕ) : ℝ))
              (safeProbFromDenom (den.get? i))
            - binomLogLik (JNum.fin ((g : ℕ) : ℝ)) (JNum.fin ((k : ℕ) : ℝ))
              (safeProbFromDenom (den.get? i))
          = ((k2 : ℝ) - (k : ℝ)) * (Real.log (safeProbFromDenom (den.get? i))
              - Real.log (1 - safeProbFromDenom (den.get? i))) :=
        fun i => binomLogLik_nat_diff g k k2 hkg hk2g _ (safeProb_ge _) (safeProb_le _)
      have hshift := fun i : ℕ =>
        aggScoreR_shift_cherryReg dm.odds
          (buildWeights machine dm.odds (JNum.fin ((g : ℕ) : ℝ)))
          (JNum.fin ((g : ℕ) : ℝ)) (coerceCount (jOfOpt0 stats.totalGames))
          (coerceCount stats.bigSingle)
          (coerceCount stats.bigCherry)
          (coerceCount stats.regSingle)
          (JNum.fin 0)
          (coerceCount stats.grapes)
          (coerceCount stats.nonOverlapCherries)
          (coerceCount (jOfOpt0 stats.midCherryBig))
          (coerceCount (jOfOpt0 stats.totalBig))
          (coerceCount (jOfOpt0 stats.totalReg))
          (JNum.fin ((k : ℕ) : ℝ)) (JNum.fin ((k2 : ℕ) : ℝ)) i den hden
      simp only [hshift]
      have hw : (0 : ℝ) <
          (buildWeights machine dm.odds (JNum.fin ((g : ℕ) : ℝ)) MetricId.cherryReg).getD 0 := by
        rw [buildWeights_some machine dm.odds _ hden (hlen _ den hden)]
        exact finWeight_pos _ _ _ _
      have hdel : (0 : ℝ) < (k2 : ℝ) - (k : ℝ) := by
        have h : (k : ℝ) < (k2 : ℝ) := Nat.cast_lt.mpr hkk
        linarith [h]
      have hcomp : ∀ i j : Fin 6, i < j →
          (buildWeights machine dm.odds (JNum.fin ((g : ℕ) : ℝ)) MetricId.cherryReg).getD 0
              * binomLogLik (JNum.fin ((g : ℕ) : ℝ)) (JNum.fin ((k2 : ℕ) : ℝ))
                (safeProbFromDenom (den.get? (i : ℕ)))
            - (buildWeights machine dm.odds (JNum.fin ((g : ℕ) : ℝ)) MetricId.cherryReg).getD 0
              * binomLogLik (JNum.fin ((g : ℕ) : ℝ)) (JNum.fin ((k : ℕ) : ℝ))
                (safeProbFromDenom (den.get? (i : ℕ)))
          < (buildWeights machine dm.odds (JNum.fin ((g : ℕ) : ℝ)) MetricId.cherryReg).getD 0
              * binomLogLik (JNum.fin ((g : ℕ) : ℝ)) (JNum.fin ((k2 : ℕ) : ℝ))
                (safeProbFromDenom (den.get? (j : ℕ)))
            - (buildWeights machine dm.odds (JNum.fin ((g : ℕ) : ℝ)) MetricId.cherryReg).getD 0
              * binomLogLik (JNum.fin ((g : ℕ) : ℝ)) (JNum.fin ((k : ℕ) : ℝ))
                (safeProbFromDenom (den.get? (j : ℕ))) :=
        fun i j hij => weighted_diff_lt _ _ _ _ _ _ _ _ hw hdel (hd (i : ℕ)) (hd (j : ℕ))
          (logit_lt _ _ (safeProb_pos _) (safeProb_lt_one _) (hmono i j hij))
      exact smEntry_pair_strict _ _ _ _ _ _ _ _ _ _ _ _
        (hcomp 0 4 (by decide)) (hcomp 1 4 (by decide)) (hcomp 2 4 (by decide))
        (hcomp 3 4 (by decide)) (hcomp 0 5 (by decide)) (hcomp 1 5 (by decide))
        (hcomp 2 5 (by decide)) (hcomp 3 5 (by decide))
    · obtain ⟨r1, hr1, hp1⟩ := infer_p56_val cat machine dm
        (setMetricCount stats MetricId.grape (JNum.fin ((k : ℕ) : ℝ))) hcat _
        (fun i => aggScore_mirror _ _ _ _ _ _ _ _ _ _ _ _ _ _
          (hW_of_hlen machine dm.odds _ hlen))
      obtain ⟨r2, hr2, hp2⟩ := infer_p56_val cat machine dm
        (setMetricCount stats MetricId.grape (JNum.fin ((k2 : ℕ) : ℝ))) hcat _
        (fun i => aggScore_mirror _ _ _ _ _ _ _ _ _ _ _ _ _ _
          (hW_of_hlen machine dm.odds _ hlen))
      refine ⟨_, _, r1, r2, hr1, hr2, hp1, hp2, ?_⟩
      simp only [setMetricCount, hseg, jOfOpt0_some, coerceCount_natCast]
      have hkg : k ≤ g := le_trans (le_of_lt hkk) hk2g
      have hd : ∀ i : ℕ,
          binomLogLik (JNum.fin ((g : ℕ) : ℝ)) (JNum.fin ((k2 : ℕ) : ℝ))
              (safeProbFromDenom (den.get? i))
            - binomLogLik (JNum.fin ((g : ℕ) : ℝ)) (JNum.fin ((k : ℕ) : ℝ))
              (safeProbFromDenom (den.get? i))
          = ((k2 : ℝ) - (k : ℝ)) * (Real.log (safeProbFromDenom (den.get? i))
              - Real.log (1 - safeProbFromDenom (den.get? i))) :=
        fun i => binomLogLik_nat_diff g k k2 hkg hk2g _ (safeProb_ge _) (safeProb_le _)
      have hshift := fun i : ℕ =>
        aggScoreR_shift_grape dm.odds
          (buildWeights machine dm.odds (JNum.fin ((g : ℕ) : ℝ)))
          (JNum.fin ((g : ℕ) : ℝ)) (coerceCount (jOfOpt0 stats.totalGames))
          (coerceCount stats.bigSingle)
          (coerceCount stats.bigCherry)
          (coerceCount stats.regSingle)
          (coerceCount stats.regCherry)
          (JNum.fin 0)
          (coerceCount stats.nonOverlapCherries)
          (coerceCount (jOfOpt0 stats.midCherryBig))
          (coerceCount (jOfOpt0 stats.totalBig))
          (coerceCount (jOfOpt0 stats.totalReg))
          (JNum.fin ((k : ℕ) : ℝ)) (JNum.fin ((k2 : ℕ) : ℝ)) i den hden
      simp only [hshift]
      have hw : (0 : ℝ) <
          (buildWeights machine dm.odds (JNum.fin ((g : ℕ) : ℝ)) MetricId.grape).getD 0 := by
        rw [buildWeights_some machine dm.odds _ hden (hlen _ den hden)]
        exact finWeight_pos _ _ _ _
      have hdel : (0 : ℝ) < (k2 : ℝ) - (k : ℝ) := by
        have h : (k : ℝ) < (k2 : ℝ) := Nat.cast_lt.mpr hkk
        linarith [h]
      have hcomp : ∀ i j : Fin 6, i < j →
          (buildWeights machine dm.odds (JNum.fin ((g : ℕ) : ℝ)) MetricId.grape).getD 0
              * binomLogLik (JNum.fin ((g : ℕ) : ℝ)) (JNum.fin ((k2 : ℕ) : ℝ))
                (safeProbFromDenom (den.get? (i : ℕ)))
            - (buildWeights machine dm.odds (JNum.fin ((g : ℕ) : ℝ)) MetricId.grape).getD 0
              * binomLogLik (JNum.fin ((g : ℕ) : ℝ)) (JNum.fin ((k : ℕ) : ℝ))
                (safeProbFromDenom (den.get? (i : ℕ)))
          < (buildWeights machine dm.odds (JNum.fin ((g : ℕ) : ℝ)) MetricId.grape).getD 0
              * binomLogLik (JNum.fin ((g : ℕ) : ℝ)) (JNum.fin ((k2 : ℕ) : ℝ))
                (safeProbFromDenom (den.get? (j : ℕ)))
            - (buildWeights machine dm.odds (JNum.fin ((g : ℕ) : ℝ)) MetricId.grape).getD 0
              * binomLogLik (JNum.fin ((g : ℕ) : ℝ)) (JNum.fin ((k : ℕ) : ℝ))
                (safeProbFromDenom (den.get? (j : ℕ))) :=
        fun i j hij => weighted_diff_lt _ _ _ _ _ _ _ _ hw hdel (hd (i : ℕ)) (hd (j : ℕ))
          (logit_lt _ _ (safeProb_pos _) (safeProb_lt_one _) (hmono i j hij))
      exact smEntry_pair_strict _ _ _ _ _ _ _ _ _ _ _ _
        (hcomp 0 4 (by decide)) (hcomp 1 4 (by decide)) (hcomp 2 4 (by decide))
        (hcomp 3 4 (by decide)) (hcomp 0 5 (by decide)) (hcomp 1 5 (by decide))
        (hcomp 2 5 (by decide)) (hcomp 3 5 (by decide))
    · obtain ⟨r1, hr1, hp1⟩ := infer_p56_val cat machine dm
        (setMetricCount stats MetricId.nonOverlapCherry (JNum.fin ((k : ℕ) : ℝ))) hcat _
        (fun i => aggScore_mirror _ _ _ _ _ _ _ _ _ _ _ _ _ _
          (hW_of_hlen machine dm.odds _ hlen))
      obtain ⟨r2, hr2, hp2⟩ := infer_p56_val cat machine dm
        (setMetricCount stats MetricId.nonOverlapCherry (JNum.fin ((k2 : ℕ) : ℝ))) hcat _
        (fun i => aggScore_mirror _ _ _ _ _ _ _ _ _ _ _ _ _ _
          (hW_of_hlen machine dm.odds _ hlen))
      refine ⟨_, _, r1, r2, hr1, hr2, hp1, hp2, ?_⟩
      simp only [setMetricCount, hseg, jOfOpt0_some, coerceCount_natCast]
      have hkg : k ≤ g := le_trans (le_of_lt hkk) hk2g
      have hd : ∀ i : ℕ,
          binomLogLik (JNum.fin ((g : ℕ) : ℝ)) (JNum.fin ((k2 : ℕ) : ℝ))
              (safeProbFromDenom (den.get? i))
            - binomLogLik (JNum.fin ((g : ℕ) : ℝ)) (JNum.fin ((k : ℕ) : ℝ))
              (safeProbFromDenom (den.get? i))
          = ((k2 : ℝ) - (k : ℝ)) * (Real.log (safeProbFromDenom (den.get? i))
              - Real.log (1 - safeProbFromDenom (den.get? i))) :=
        fun i => binomLogLik_nat_diff g k k2 hkg hk2g _ (safeProb_ge _) (safeProb_le _)
      have hshift := fun i : ℕ =>
        aggScoreR_shift_nonOverlapCherry dm.odds
          (buildWeights machine dm.odds (JNum.fin ((g : ℕ) : ℝ)))
          (JNum.fin ((g : ℕ) : ℝ)) (coerceCount (jOfOpt0 stats.totalGames))
          (coerceCount stats.bigSingle)
          (coerceCount stats.bigCherry)
          (coerceCount stats.regSingle)
          (coerceCount stats.regCherry)
          (coerceCount stats.grapes)
          (JNum.fin 0)
          (coerceCount (jOfOpt0 stats.midCherryBig))
          (coerceCount (jOfOpt0 stats.totalBig))
          (coerceCount (jOfOpt0 stats.totalReg))
          (JNum.fin ((k : ℕ) : ℝ)) (JNum.fin ((k2 : ℕ) : ℝ)) i den hden
      simp only [hshift]
      have hw : (0 : ℝ) <
          (buildWeights machine dm.odds (JNum.fin ((g : ℕ) : ℝ)) MetricId.nonOverlapCherry).getD 0 := by
        rw [buildWeights_some machine dm.odds _ hden (hlen _ den hden)]
        exact finWeight_pos _ _ _ _
      have hdel : (0 : ℝ) < (k2 : ℝ) - (k : ℝ) := by
        have h : (k : ℝ) < (k2 : ℝ) := Nat.cast_lt.mpr hkk
        linarith [h]
      have hcomp : ∀ i j : Fin 6, i < j →
          (buildWeights machine dm.odds (JNum.fin ((g : ℕ) : ℝ)) MetricId.nonOverlapCherry).getD 0
              * binomLogLik (JNum.fin ((g : ℕ) : ℝ)) (JNum.fin ((k2 : ℕ) : ℝ))
                (safeProbFromDenom (den.get? (i : ℕ)))
            - (buildWeights machine dm.odds (JNum.fin ((g : ℕ) : ℝ)) MetricId.nonOverlapCherry).getD 0
              * binomLogLik (JNum.fin ((g : ℕ) : ℝ)) (JNum.fin ((k : ℕ) : ℝ))
                (safeProbFromDenom (den.get? (i : ℕ)))
          < (buildWeights machine dm.odds (JNum.fin ((g : ℕ) : ℝ)) MetricId.nonOverlapCherry).getD 0
              * binomLogLik (JNum.fin ((g : ℕ) : ℝ)) (JNum.fin ((k2 : ℕ) : ℝ))
                (safeProbFromDenom (den.get? (j : ℕ)))
            - (buildWeights machine dm.odds (JNum.fin ((g : ℕ) : ℝ)) MetricId.nonOverlapCherry).getD 0
              * binomLogLik (JNum.fin ((g : ℕ) : ℝ)) (JNum.fin ((k : ℕ) : ℝ))
                (safeProbFromDenom (den.get? (j : ℕ))) :=
        fun i j hij => weighted_diff_lt _ _ _ _ _ _ _ _ hw hdel (hd (i : ℕ)) (hd (j : ℕ))
          (logit_lt _ _ (safeProb_pos _) (safeProb_lt_one _) (hmono i j hij))
      exact smEntry_pair_strict _ _ _ _ _ _ _ _ _ _ _ _
        (hcomp 0 4 (by decide)) (hcomp 1 4 (by decide)) (hcomp 2 4 (by decide))
        (hcomp 3 4 (by decide)) (hcomp 0 5 (by decide)) (hcomp 1 5 (by decide))
        (hcomp 2 5 (by decide)) (hcomp 3 5 (by decide))
    · obtain ⟨r1, hr1, hp1⟩ := infer_p56_val cat machine dm
        (setMetricCount stats MetricId.midCherryBig (JNum.fin ((k : ℕ) : ℝ))) hcat _
        (fun i => aggScore_mirror _ _ _ _ _ _ _ _ _ _ _ _ _ _
          (hW_of_hlen machine dm.odds _ hlen))
      obtain ⟨r2, hr2, hp2⟩ := infer_p56_val cat machine dm
        (setMetricCount stats MetricId.midCherryBig (JNum.fin ((k2 : ℕ) : ℝ))) hcat _
        (fun i => aggScore_mirror _ _ _ _ _ _ _ _ _ _ _ _ _ _
          (hW_of_hlen machine dm.odds _ hlen))
      refine ⟨_, _, r1, r2, hr1, hr2, hp1, hp2, ?_⟩
      simp only [setMetricCount, hseg, jOfOpt0_some, coerceCount_natCast]
      have hkg : k ≤ g := le_trans (le_of_lt hkk) hk2g
      have hd : ∀ i : ℕ,
          binomLogLik (JNum.fin ((g : ℕ) : ℝ)) (JNum.fin ((k2 : ℕ) : ℝ))
              (safeProbFromDenom (den.get? i))
            - binomLogLik (JNum.fin ((g : ℕ) : ℝ)) (JNum.fin ((k : ℕ) : ℝ))
              (safeProbFromDenom (den.get? i))
          = ((k2 : ℝ) - (k : ℝ)) * (Real.log (safeProbFromDenom (den.get? i))
              - Real.log (1 - safeProbFromDenom (den.get? i))) :=
        fun i => binomLogLik_nat_diff g k k2 hkg hk2g _ (safeProb_ge _) (safeProb_le _)
      have hshift := fun i : ℕ =>
        aggScoreR_shift_midCherryBig dm.odds
          (buildWeights machine dm.odds (JNum.fin ((g : ℕ) : ℝ)))
          (JNum.fin ((g : ℕ) : ℝ)) (coerceCount (jOfOpt0 stats.totalGames))
          (coerceCount stats.bigSingle)
          (coerceCount stats.bigCherry)
          (coerceCount stats.regSingle)
          (coerceCount stats.regCherry)
          (coerceCount stats.grapes)
          (coerceCount stats.nonOverlapCherries)
          (JNum.fin 0)
          (coerceCount (jOfOpt0 stats.totalBig))
          (coerceCount (jOfOpt0 stats.totalReg))
          (JNum.fin ((k : ℕ) : ℝ)) (JNum.fin ((k2 : ℕ) : ℝ)) i den hden
      simp only [hshift]
      have hw : (0 : ℝ) <
          (buildWeights machine dm.odds (JNum.fin ((g : ℕ) : ℝ)) MetricId.midCherryBig).getD 0 := by
        rw [buildWeights_some machine dm.odds _ hden (hlen _ den hden)]
        exact finWeight_pos _ _ _ _
      have hdel : (0 : ℝ) < (k2 : ℝ) - (k : ℝ) := by
        have h : (k : ℝ) < (k2 : ℝ) := Nat.cast_lt.mpr hkk
        linarith [h]
      have hcomp : ∀ i j : Fin 6, i < j →
          (buildWeights machine dm.odds (JNum.fin ((g : ℕ) : ℝ)) MetricId.midCherryBig).getD 0
              * binomLogLik (JNum.fin ((g : ℕ) : ℝ)) (JNum.fin ((k2 : ℕ) : ℝ))
                (safeProbFromDenom (den.get? (i : ℕ)))
            - (buildWeights machine dm.odds (JNum.fin ((g : ℕ) : ℝ)) MetricId.midCherryBig).getD 0
              * binomLogLik (JNum.fin ((g : ℕ) : ℝ)) (JNum.fin ((k : ℕ) : ℝ))
                (safeProbFromDenom (den.get? (i : ℕ)))
          < (buildWeights machine dm.odds (JNum.fin ((g : ℕ) : ℝ)) MetricId.midCherryBig).getD 0
              * binomLogLik (JNum.fin ((g : ℕ) : ℝ)) (JNum.fin ((k2 : ℕ) : ℝ))
                (safeProbFromDenom (den.get? (j : ℕ)))
            - (buildWeights machine dm.odds (JNum.fin ((g : ℕ) : ℝ)) MetricId.midCherryBig).getD 0
              * binomLogLik (JNum.fin ((g : ℕ) : ℝ)) (JNum.fin ((k : ℕ) : ℝ))
                (safeProbFromDenom (den.get? (j : ℕ))) :=
        fun i j hij => weighted_diff_lt _ _ _ _ _ _ _ _ hw hdel (hd (i : ℕ)) (hd (j : ℕ))
          (logit_lt _ _ (safeProb_pos _) (safeProb_lt_one _) (hmono i j hij))
      exact smEntry_pair_strict _ _ _ _ _ _ _ _ _ _ _ _
        (hcomp 0 4 (by decide)) (hcomp 1 4 (by decide)) (hcomp 2 4 (by decide))
        (hcomp 3 4 (by decide)) (hcomp 0 5 (by decide)) (hcomp 1 5 (by decide))
        (hcomp 2 5 (by decide)) (hcomp 3 5 (by decide))
  · intro t k k2 hm htot ht hkk hk2t
    rcases hm with rfl | rfl
    · obtain ⟨r1, hr1, hp1⟩ := infer_p56_val cat machine dm
        (setMetricCount stats MetricId.totalBig (JNum.fin ((k : ℕ) : ℝ))) hcat _
        (fun i => aggScore_mirror _ _ _ _ _ _ _ _ _ _ _ _ _ _
          (hW_of_hlen machine dm.odds _ hlen))
      obtain ⟨r2, hr2, hp2⟩ := infer_p56_val cat machine dm
        (setMetricCount stats MetricId.totalBig (JNum.fin ((k2 : ℕ) : ℝ))) hcat _
        (fun i => aggScore_mirror _ _ _ _ _ _ _ _ _ _ _ _ _ _
          (hW_of_hlen machine dm.odds _ hlen))
      refine ⟨_, _, r1, r2, hr1, hr2, hp1, hp2, ?_⟩
      simp only [setMetricCount, htot, jOfOpt0_some, coerceCount_natCast]
      have hkt : k ≤ t := le_trans (le_of_lt hkk) hk2t
      have hd : ∀ i : ℕ,
          binomLogLik (JNum.fin ((t : ℕ) : ℝ)) (JNum.fin ((k2 : ℕ) : ℝ))
              (safeProbFromDenom (den.get? i))
            - binomLogLik (JNum.fin ((t : ℕ) : ℝ)) (JNum.fin ((k : ℕ) : ℝ))
              (safeProbFromDenom (den.get? i))
          = ((k2 : ℝ) - (k : ℝ)) * (Real.log (safeProbFromDenom (den.get? i))
              - Real.log (1 - safeProbFromDenom (den.get? i))) :=
        fun i => binomLogLik_nat_diff t k k2 hkt hk2t _ (safeProb_ge _) (safeProb_le _)
      have hguard : jGtB (JNum.fin ((t : ℕ) : ℝ)) (JNum.fin 0) = true := by
        rw [jGtB_fin_fin]
        exact decide_eq_true (by exact_mod_cast ht)
      have hgeA : jGeB (JNum.fin ((k : ℕ) : ℝ)) (JNum.fin 0) = true := by
        rw [jGeB_fin_fin]
        exact decide_eq_true (by positivity)
      have hgeB : jGeB (JNum.fin ((k2 : ℕ) : ℝ)) (JNum.fin 0) = true := by
        rw [jGeB_fin_fin]
        exact decide_eq_true (by positivity)
      have hshift := fun i : ℕ =>
        aggScoreR_shift_totalBig dm.odds
          (buildWeights machine dm.odds (coerceCount stats.segGames))
          (coerceCount stats.segGames) (JNum.fin ((t : ℕ) : ℝ))
          (coerceCount stats.bigSingle)
          (coerceCount stats.bigCherry)
          (coerceCount stats.regSingle)
          (coerceCount stats.regCherry)
          (coerceCount stats.grapes)
          (coerceCount stats.nonOverlapCherries)
          (coerceCount (jOfOpt0 stats.midCherryBig))
          (JNum.fin 0)
          (coerceCount (jOfOpt0 stats.totalReg))
          (JNum.fin ((k : ℕ) : ℝ)) (JNum.fin ((k2 : ℕ) : ℝ)) i den hden hguard hgeA hgeB
      simp only [hshift]
      have hw : (0 : ℝ) <
          (buildWeights machine dm.odds (coerceCount stats.segGames) MetricId.totalBig).getD 0 := by
        rw [buildWeights_some machine dm.odds _ hden (hlen _ den hden)]
        exact finWeight_pos _ _ _ _
      have hdel : (0 : ℝ) < (k2 : ℝ) - (k : ℝ) := by
        have h : (k : ℝ) < (k2 : ℝ) := Nat.cast_lt.mpr hkk
        linarith [h]
      have hcomp : ∀ i j : Fin 6, i < j →
          (buildWeights machine dm.odds (coerceCount stats.segGames) MetricId.totalBig).getD 0
              * binomLogLik (JNum.fin ((t : ℕ) : ℝ)) (JNum.fin ((k2 : ℕ) : ℝ))
                (safeProbFromDenom (den.get? (i : ℕ)))
            - (buildWeights machine dm.odds (coerceCount stats.segGames) MetricId.totalBig).getD 0
              * binomLogLik (JNum.fin ((t : ℕ) : ℝ)) (JNum.fin ((k : ℕ) : ℝ))
                (safeProbFromDenom (den.get? (i : ℕ)))
          < (buildWeights machine dm.odds (coerceCount stats.segGames) MetricId.totalBig).getD 0
              * binomLogLik (JNum.fin ((t : ℕ) : ℝ)) (JNum.fin ((k2 : ℕ) : ℝ))
                (safeProbFromDenom (den.get? (j : ℕ)))
            - (buildWeights machine dm.odds (coerceCount stats.segGames) MetricId.totalBig).getD 0
              * binomLogLik (JNum.fin ((t : ℕ) : ℝ)) (JNum.fin ((k : ℕ) : ℝ))
                (safeProbFromDenom (den.get? (j : ℕ))) :=
        fun i j hij => weighted_diff_lt _ _ _ _ _ _ _ _ hw hdel (hd (i : ℕ)) (hd (j : ℕ))
          (logit_lt _ _ (safeProb_pos _) (safeProb_lt_one _) (hmono i j hij))
      exact smEntry_pair_strict _ _ _ _ _ _ _ _ _ _ _ _
        (hcomp 0 4 (by decide)) (hcomp 1 4 (by decide)) (hcomp 2 4 (by decide))
        (hcomp 3 4 (by decide)) (hcomp 0 5 (by decide)) (hcomp 1 5 (by decide))
        (hcomp 2 5 (by decide)) (hcomp 3 5 (by decide))
    · obtain ⟨r1, hr1, hp1⟩ := infer_p56_val cat machine dm
        (setMetricCount stats MetricId.totalReg (JNum.fin ((k : ℕ) : ℝ))) hcat _
        (fun i => aggScore_mirror _ _ _ _ _ _ _ _ _ _ _ _ _ _
          (hW_of_hlen machine dm.odds _ hlen))
      obtain ⟨r2, hr2, hp2⟩ := infer_p56_val cat machine dm
        (setMetricCount stats MetricId.totalReg (JNum.fin ((k2 : ℕ) : ℝ))) hcat _
        (fun i => aggScore_mirror _ _ _ _ _ _ _ _ _ _ _ _ _ _
          (hW_of_hlen machine dm.odds _ hlen))
      refine ⟨_, _, r1, r2, hr1, hr2, hp1, hp2, ?_⟩
      simp only [setMetricCount, htot, jOfOpt0_some, coerceCount_natCast]
      have hkt : k ≤ t := le_trans (le_of_lt hkk) hk2t
      have hd : ∀ i : ℕ,
          binomLogLik (JNum.fin ((t : ℕ) : ℝ)) (JNum.fin ((k2 : ℕ) : ℝ))
              (safeProbFromDenom (den.get? i))
            - binomLogLik (JNum.fin ((t : ℕ) : ℝ)) (JNum.fin ((k : ℕ) : ℝ))
              (safeProbFromDenom (den.get? i))
          = ((k2 : ℝ) - (k : ℝ)) * (Real.log (safeProbFromDenom (den.get? i))
              - Real.log (1 - safeProbFromDenom (den.get? i))) :=
        fun i => binomLogLik_nat_diff t k k2 hkt hk2t _ (safeProb_ge _) (safeProb_le _)
      have hguard : jGtB (JNum.fin ((t : ℕ) : ℝ)) (JNum.fin 0) = true := by
        rw [jGtB_fin_fin]
        exact decide_eq_true (by exact_mod_cast ht)
      have hgeA : jGeB (JNum.fin ((k : ℕ) : ℝ)) (JNum.fin 0) = true := by
        rw [jGeB_fin_fin]
        exact decide_eq_true (by positivity)
      have hgeB : jGeB (JNum.fin ((k2 : ℕ) : ℝ)) (JNum.fin 0) = true := by
        rw [jGeB_fin_fin]
        exact decide_eq_true (by positivity)
      have hshift := fun i : ℕ =>
        aggScoreR_shift_totalReg dm.odds
          (buildWeights machine dm.odds (coerceCount stats.segGames))
          (coerceCount stats.segGames) (JNum.fin ((t : ℕ) : ℝ))
          (coerceCount stats.bigSingle)
          (coerceCount stats.bigCherry)
          (coerceCount stats.regSingle)
          (coerceCount stats.regCherry)
          (coerceCount stats.grapes)
          (coerceCount stats.nonOverlapCherries)
          (coerceCount (jOfOpt0 stats.midCherryBig))
          (coerceCount (jOfOpt0 stats.totalBig))
          (JNum.fin 0)
          (JNum.fin ((k : ℕ) : ℝ)) (JNum.fin ((k2 : ℕ) : ℝ)) i den hden hguard hgeA hgeB
      simp only [hshift]
      have hw : (0 : ℝ) <
          (buildWeights machine dm.odds (coerceCount stats.segGames) MetricId.totalReg).getD 0 := by
        rw [buildWeights_some machine dm.odds _ hden (hlen _ den hden)]
        exact finWeight_pos _ _ _ _
      have hdel : (0 : ℝ) < (k2 : ℝ) - (k : ℝ) := by
        have h : (k : ℝ) < (k2 : ℝ) := Nat.cast_lt.mpr hkk
        linarith [h]
      have hcomp : ∀ i j : Fin 6, i < j →
          (buildWeights machine dm.odds (coerceCount stats.segGames) MetricId.totalReg).getD 0
              * binomLogLik (JNum.fin ((t : ℕ) : ℝ)) (JNum.fin ((k2 : ℕ) : ℝ))
                (safeProbFromDenom (den.get? (i : ℕ)))
            - (buildWeights machine dm.odds (coerceCount stats.segGames) MetricId.totalReg).getD 0
              * binomLogLik (JNum.fin ((t : ℕ) : ℝ)) (JNum.fin ((k : ℕ) : ℝ))
                (safeProbFromDenom (den.get? (i : ℕ)))
          < (buildWeights machine dm.odds (coerceCount stats.segGames) MetricId.totalReg).getD 0
              * binomLogLik (JNum.fin ((t : ℕ) : ℝ)) (JNum.fin ((k2 : ℕ) : ℝ))
                (safeProbFromDenom (den.get? (j : ℕ)))
            - (buildWeights machine dm.odds (coerceCount stats.segGames) MetricId.totalReg).getD 0
              * binomLogLik (JNum.fin ((t : ℕ) : ℝ)) (JNum.fin ((k : ℕ) : ℝ))
                (safeProbFromDenom (den.get? (j : ℕ))) :=
        fun i j hij => weighted_diff_lt _ _ _ _ _ _ _ _ hw hdel (hd (i : ℕ)) (hd (j : ℕ))
          (logit_lt _ _ (safeProb_pos _) (safeProb_lt_one _) (hmono i j hij))
      exact smEntry_pair_strict _ _ _ _ _ _ _ _ _ _ _ _
        (hcomp 0 4 (by decide)) (hcomp 1 4 (by decide)) (hcomp 2 4 (by decide))
        (hcomp 3 4 (by decide)) (hcomp 0 5 (by decide)) (hcomp 1 5 (by decide))
        (hcomp 2 5 (by decide)) (hcomp 3 5 (by decide))

/-! Helper facts for the clamped probability at extreme and ordinary
denominators, and the softmax of constant scores. -/

lemma safeProb_big (d : ℝ) (hd : 1e12 ≤ d) : safeProbFromDenom (some d) = 1e-12 := by
  have hd0 : (0 : ℝ) < d := lt_of_lt_of_le (by norm_num) hd
  have h1 : (1 : ℝ) / d ≤ 1e-12 := by
    rw [div_le_iff hd0]
    nlinarith
  simp only [safeProbFromDenom]
  rw [if_neg (not_not_intro hd0), if_neg (not_le.mpr (by positivity)),
    max_eq_left h1, min_eq_right (by norm_num)]

lemma safeProb_mid (d : ℝ) (h2 : 2 ≤ d) (h12 : d ≤ 1e12) :
    safeProbFromDenom (some d) = 1 / d := by
  have hd0 : (0 : ℝ) < d := lt_of_lt_of_le (by norm_num) h2
  have hlo : (1e-12 : ℝ) ≤ 1 / d := by
    rw [le_div_iff hd0]
    nlinarith
  have hhi : (1 : ℝ) / d ≤ 1 - 1e-12 := by
    rw [div_le_iff hd0]
    nlinarith
  simp only [safeProbFromDenom]
  rw [if_neg (not_not_intro hd0), if_neg (not_le.mpr (by positivity)),
    max_eq_right hlo, min_eq_right hhi]

lemma smEntry_const (v : ℝ) : smEntry v v v v v v v = 1 / 6 := by
  simp [smEntry, sumExp6, max6, sub_self, Real.exp_zero]
  norm_num

lemma hlenC7 : ∀ m den, mdefC7.odds m = some den → den.length = 6 := by
  intro m den h
  by_cases hm : m = MetricId.grape
  · rw [show mdefC7.odds m = some [(1e13 + 5 : ℝ), 1e13 + 4, 1e13 + 3, 1e13 + 2, 1e13 + 1, 1e13]
      from by simp [mdefC7, oddsC7, hm]] at h
    cases h
    rfl
  · simp [mdefC7, oddsC7, hm] at h

lemma aggScoreR_C7_const (W : MetricId → Option ℝ) (segG kg : JNum) (i : Fin 6) :
    aggScoreR oddsC7 W segG (JNum.fin 0) (JNum.fin 0) (JNum.fin 0) (JNum.fin 0) (JNum.fin 0)
      kg (JNum.fin 0) (JNum.fin 0) (JNum.fin 0) (JNum.fin 0) ((i : ℕ))
      = (W MetricId.grape).getD 0 * binomLogLik segG kg 1e-12 := by
  have hz : decide ((0 : ℝ) < 0) = false := decide_eq_false (lt_irrefl 0)
  fin_cases i <;>
    simp [aggScoreR, segTermValR, totalTermValR, oddsC7, hz,
      safeProb_big (1e13 + 5 : ℝ) (by norm_num), safeProb_big (1e13 + 4 : ℝ) (by norm_num),
      safeProb_big (1e13 + 3 : ℝ) (by norm_num), safeProb_big (1e13 + 2 : ℝ) (by norm_num),
      safeProb_big (1e13 + 1 : ℝ) (by norm_num), safeProb_big (1e13 : ℝ) (by norm_num)]

/-- C7 counterexample: the device `"Z"`'s single metric has strictly
decreasing denominators and its built weight is nonzero (positive), yet
raising the observed count from 0 to 1 within 10 segment games leaves `p56`
unchanged at 1/3: every per-setting probability clamps to `1e-12`, so all
six aggregated scores stay equal. -/
theorem claim_C7_counterexample :
    oddsC7 MetricId.grape = some [1e13 + 5, 1e13 + 4, 1e13 + 3, 1e13 + 2, 1e13 + 1, 1e13]
    ∧ ((1e13 : ℝ) < 1e13 + 1 ∧ (1e13 + 1 : ℝ) < 1e13 + 2 ∧ (1e13 + 2 : ℝ) < 1e13 + 3
        ∧ (1e13 + 3 : ℝ) < 1e13 + 4 ∧ (1e13 + 4 : ℝ) < 1e13 + 5)
    ∧ (0 : ℝ) < (buildWeights "Z" oddsC7 (coerceCount (JNum.fin 10)) MetricId.grape).getD 0
    ∧ (∃ r1 r2,
        infer catC7 "Z" (statsC7 (JNum.fin 0)) = Except.ok r1
        ∧ infer catC7 "Z" (statsC7 (JNum.fin 1)) = Except.ok r2
        ∧ r1.p56 = JNum.fin (1 / 3) ∧ r2.p56 = JNum.fin (1 / 3)) := by
  have hden : oddsC7 MetricId.grape
      = some [1e13 + 5, 1e13 + 4, 1e13 + 3, 1e13 + 2, 1e13 + 1, 1e13] := by
    simp [oddsC7]
  have hcat : catC7 "Z" = some mdefC7 := by simp [catC7]
  have hwpos : (0 : ℝ)
      < (buildWeights "Z" oddsC7 (coerceCount (JNum.fin 10)) MetricId.grape).getD 0 := by
    rw [buildWeights_some "Z" oddsC7 _ hden (by rfl)]
    exact finWeight_pos _ _ _ _
  obtain ⟨r1, hr1, hp1⟩ := infer_p56_val catC7 "Z" mdefC7 (statsC7 (JNum.fin 0)) hcat _
    (fun i => aggScore_mirror _ _ _ _ _ _ _ _ _ _ _ _ _ _
      (hW_of_hlen "Z" mdefC7.odds _ hlenC7))
  obtain ⟨r2, hr2, hp2⟩ := infer_p56_val catC7 "Z" mdefC7 (statsC7 (JNum.fin 1)) hcat _
    (fun i => aggScore_mirror _ _ _ _ _ _ _ _ _ _ _ _ _ _
      (hW_of_hlen "Z" mdefC7.odds _ hlenC7))
  refine ⟨hden, by norm_num, hwpos, r1, r2, hr1, hr2, ?_, ?_⟩
  · rw [hp1]
    simp only [statsC7, statsZero, mdefC7, jOfOpt0_none, coerceCount_zero]
    simp only [aggScoreR_C7_const]
    rw [smEntry_const]
    norm_num
  · rw [hp2]
    simp only [statsC7, statsZero, mdefC7, jOfOpt0_none, coerceCount_zero]
    simp only [aggScoreR_C7_const]
    rw [smEntry_const]
    norm_num

/-- C7 witness: the amended monotonicity theorem applied to a device whose
single metric has denominators `[7,6,5,4,3,2]` (ordinary range, strictly
increasing clamped probabilities), 5 segment games, count raised from 0
to 1. -/
theorem claim_C7_witness :
    ∃ p q r1 r2,
      infer catW "W" (setMetricCount statsW MetricId.grape (JNum.fin ((0 : ℕ) : ℝ)))
          = Except.ok r1
      ∧ infer catW "W" (setMetricCount statsW MetricId.grape (JNum.fin ((1 : ℕ) : ℝ)))
          = Except.ok r2
      ∧ r1.p56 = JNum.fin p ∧ r2.p56 = JNum.fin q ∧ p < q := by
  have hcatW : catW "W" = some mdefW := by simp [catW]
  have hdenW : mdefW.odds MetricId.grape = some [7, 6, 5, 4, 3, 2] := by simp [mdefW, oddsW]
  have hlenW : ∀ m den, mdefW.odds m = some den → den.length = 6 := by
    intro m den h
    by_cases hm : m = MetricId.grape
    · rw [show mdefW.odds m = some [(7 : ℝ), 6, 5, 4, 3, 2] from by simp [mdefW, oddsW, hm]] at h
      cases h
      rfl
    · simp [mdefW, oddsW, hm] at h
  have hmonoW : ∀ i j : Fin 6, i < j →
      safeProbFromDenom (([7, 6, 5, 4, 3, 2] : List ℝ).get? (i : ℕ))
        < safeProbFromDenom (([7, 6, 5, 4, 3, 2] : List ℝ).get? (j : ℕ)) := by
    intro i j hij
    fin_cases i <;> fin_cases j <;>
      first
        | exact absurd hij (by decide)
        | norm_num [safeProb_mid (7 : ℝ) (by norm_num) (by norm_num),
            safeProb_mid (6 : ℝ) (by norm_num) (by norm_num),
            safeProb_mid (5 : ℝ) (by norm_num) (by norm_num),
            safeProb_mid (4 : ℝ) (by norm_num) (by norm_num),
            safeProb_mid (3 : ℝ) (by norm_num) (by norm_num),
            safeProb_mid (2 : ℝ) (by norm_num) (by norm_num)]
  exact (claim_C7_monotonicity catW "W" mdefW statsW MetricId.grape [7, 6, 5, 4, 3, 2]
    hcatW hlenW hdenW hmonoW).1 5 0 1
    (Or.inr (Or.inr (Or.inr (Or.inr (Or.inl rfl))))) rfl (by decide) (by decide)
